import Mathlib

/-!
# Verification of the sherlock-backend entity-resolution and annotation core

Shallow embedding of the deterministic matcher (`src/matcher_service.py`),
annotator (`src/annotator_service.py`) and the small resolver utilities
(`src/similarity.py`, `src/resolver.py`, `src/text_marker.py`).

Python strings are modelled as `List Char`; Python floats as `ℚ`
(the decimal constants `0.7`, `0.85`, `0.95`, ... of the source are exact
rationals in the model); SQLite tables as Lean lists of row structures, and
the remaining read-only aggregate queries of the gateway as opaque function
fields.  Fallible code (Python exceptions) is modelled with `Option`/`Except`.
-/

namespace Sherlock

/-- Python strings of the source are modelled as lists of characters. -/
abbrev Str := List Char

/-- Python `str.lower()` (per-character; the model ignores the rare
multi-character Unicode lowerings, which do not occur for the data handled
by the service). -/
def lowerL (s : Str) : Str := s.map Char.toLower

/-- Python `str.upper()` / SQL `UPPER(...)` (per-character). -/
def upperL (s : Str) : Str := s.map Char.toUpper

/-- Python `str.strip()`: remove leading and trailing whitespace. -/
def trimL (s : Str) : Str :=
  ((s.dropWhile Char.isWhitespace).reverse.dropWhile Char.isWhitespace).reverse

/-- One pass of `re.sub(r'\s+', ' ', s)`: every maximal whitespace run
becomes a single space.  The boolean records whether the previous character
was part of a whitespace run. -/
def collapseWsAux : Str → Bool → Str
  | [], _ => []
  | c :: cs, inWs =>
    if c.isWhitespace then (if inWs then [] else [' ']) ++ collapseWsAux cs true
    else c :: collapseWsAux cs false

/-- `re.sub(r'\s+', ' ', s)` from `MatcherService._normalizar_texto`. -/
def collapseWs (s : Str) : Str := collapseWsAux s false

/-- Inner loop of `levenshtein_distance` (src/matcher_service.py lines 48-55):
given `c1`, the remaining tail of `s2`, the corresponding tail of
`previous_row` and the last value appended to `current_row`, produce the rest
of `current_row`. -/
def levInner (c1 : Char) : Str → List Nat → Nat → List Nat
  | c2 :: s2, p0 :: p1 :: ps, last =>
    let v := Nat.min (p1 + 1) (Nat.min (last + 1) (p0 + (if c1 ≠ c2 then 1 else 0)))
    v :: levInner c1 s2 (p1 :: ps) v
  | _, _, _ => []

/-- Outer loop of `levenshtein_distance`: fold the rows over `s1`
(`i` is the `enumerate` index of the previous iteration, starting at `0`). -/
def levRows (s2 : Str) : Str → List Nat → Nat → List Nat
  | [], prev, _ => prev
  | c1 :: s1, prev, i => levRows s2 s1 ((i + 1) :: levInner c1 s2 prev (i + 1)) (i + 1)

/-- Body of `levenshtein_distance` after the argument swap: the guard
`if len(s2) == 0: return len(s1)` followed by the dynamic program, returning
`previous_row[-1]`. -/
def levMain (s1 s2 : Str) : Nat :=
  if s2.length = 0 then s1.length
  else (levRows s2 s1 (List.range (s2.length + 1)) 0).getLastD 0

/-- `levenshtein_distance` (src/matcher_service.py lines 40-57): the
self-call `levenshtein_distance(s2, s1)` when `len(s1) < len(s2)` is unfolded
once (the swapped call immediately passes the guard). -/
def levenshtein_distance (s1 s2 : Str) : Nat :=
  if s1.length < s2.length then levMain s2 s1 else levMain s1 s2

/-- `fuzz_ratio_basic` (src/matcher_service.py lines 59-67).  Note that the
`if not s1 or not s2` guard fires for two empty strings as well, so the
`max_len == 0` branch below it is unreachable. -/
def fuzz_ratio_basic (s1 s2 : Str) : ℚ :=
  if s1 = [] ∨ s2 = [] then 0
  else
    let max_len := Nat.max s1.length s2.length
    if max_len = 0 then 100
    else ((max_len : ℚ) - (levenshtein_distance (lowerL s1) (lowerL s2) : ℚ)) / (max_len : ℚ) * 100

/-- `MatcherService._normalizar_matricula`: `re.sub(r'[\s\-]', '', m).upper()`
behind the empty guard. -/
def normalizar_matricula (m : Str) : Str :=
  if m = [] then [] else upperL (m.filter (fun c => !(c.isWhitespace || c = '-')))

/-- `MatcherService._normalizar_dni`: `re.sub(r'\s', '', dni).upper()` behind
the empty guard. -/
def normalizar_dni (d : Str) : Str :=
  if d = [] then [] else upperL (d.filter (fun c => !c.isWhitespace))

/-- `MatcherService._normalizar_texto`.  The `unidecode` collaborator (the
external library, or the `unidecode_basic` fallback whose translation table
is malformed at module load) is passed in as a function parameter. -/
def normalizar_texto (unidec : Str → Str) (texto : Str) : Str :=
  if texto = [] then [] else trimL (collapseWs (upperL (unidec texto)))

/-- SQL `UPPER(REPLACE(REPLACE(plate, ' ', ''), '-', ''))` used by
`_buscar_vehiculo_exacto`. -/
def sqlNormPlate (p : Str) : Str := upperL (p.filter (fun c => !(c = ' ' || c = '-')))

/-- SQL `UPPER(REPLACE(dni, ' ', ''))` used by `_buscar_persona_by_dni`. -/
def sqlNormDni (d : Str) : Str := upperL (d.filter (fun c => !(c = ' ')))

/-- `plate_similarity` (src/similarity.py): `sum(1 for x, y in zip(a, b) if x == y)`. -/
def countEq : Str → Str → Nat
  | x :: xs, y :: ys => (if x = y then 1 else 0) + countEq xs ys
  | _, _ => 0

/-- `plate_similarity` (src/similarity.py lines 3-5).  The Python function
raises `ZeroDivisionError` when both inputs are empty (the divisor
`max(len(a), len(b))` is `0`); the failure is modelled as `none`. -/
def plate_similarity (a b : Str) : Option ℚ :=
  if Nat.max a.length b.length = 0 then none
  else some ((countEq a b : ℚ) / ((Nat.max a.length b.length : Nat) : ℚ))

/-! ## Matcher data model (src/matcher_service.py)

SQLite rows are structures whose text columns are `Str` (`[]` models SQL
`NULL` as well as the empty string: the Python code only ever tests them
for truthiness, where both behave alike). -/

/-- A row of the `vehicles` table. -/
structure VehRow where
  vehicle_id : Nat
  plate : Str
  brand : Str
  model : Str
  dni_titular : Str
deriving DecidableEq

/-- A row of the `persons` table. -/
structure PersonRow where
  dni : Str
  nombre : Str
  apellidos : Str
  direccion : Str
  telefono : Str
  fecha_nacimiento : Str
  sexo : Str
  observaciones : Str
deriving DecidableEq

/-- A row of the `locations` table. -/
structure LocRow where
  location_id : Nat
  street_type : Str
  street_name : Str
  number : Str
  canonical_name : Str
  city : Str
  postal_code : Str
  latitude : ℚ
  longitude : ℚ
deriving DecidableEq

/-- A row of `_get_vehicle_drivers` (habitual driver of a vehicle). -/
structure DriverRec where
  dni : Str
  nombre : Str
  apellidos : Str
  confidence : ℚ
  relation_type : Str
deriving DecidableEq

/-- A row of `_get_person_vehicles` (vehicle related to a person). -/
structure RelVehicle where
  plate : Str
  brand : Str
  model : Str
  relation_type : Str
deriving DecidableEq

/-- The `enrichment['titular']` sub-dictionary. -/
structure Titular where
  dni : Str
  nombre : Str
  apellidos : Str
deriving DecidableEq

/-- The `enrichment` dictionary of a `Match`; `none` models an absent key.
`errorMsg` is the `{"error": str(e)}` payload of an `ERROR` match. -/
structure Enrichment where
  titular : Option Titular
  apariciones_previas : Option Nat
  eventos_previos : Option (List Str)
  conductores_habituales : Option (List DriverRec)
  roles_previos : Option (List Str)
  vehiculos_relacionados : Option (List RelVehicle)
  eventos_recurrentes : Option (List Str)
  aliasNames : Option (List Str)
  errorMsg : Option Str
deriving DecidableEq

/-- The empty enrichment dictionary `{}`. -/
def Enrichment.empty : Enrichment := ⟨none, none, none, none, none, none, none, none, none⟩

/-- The `{"error": str(e)}` enrichment of an `ERROR` match. -/
def Enrichment.ofError (e : Str) : Enrichment :=
  ⟨none, none, none, none, none, none, none, none, some e⟩

/-- An extracted vehicle entity (`entidades["vehiculos"]` element); absent
dictionary keys default to the empty string via `.get(..., "")`. -/
structure Vehiculo where
  matricula : Str
  marca : Str
  modelo : Str
deriving DecidableEq

/-- An extracted person entity. -/
structure Persona where
  dni : Str
  nombre : Str
  apellidos : Str
deriving DecidableEq

/-- An extracted location entity. -/
structure Ubicacion where
  tipo_via : Str
  nombre_via : Str
  numero : Str
deriving DecidableEq

/-- The `VehiculoMatch` / `PersonaMatch` / `UbicacionMatch` dataclasses
(they have identical fields, so one parametrised structure model all
three).  `match_type` is one of `"EXACTO"`, `"PARCIAL"`,
`"SIN_COINCIDENCIA"`, `"ERROR"`. -/
structure MatchResult (ε ρ : Type) where
  entidad_original : ε
  match_type : String
  confidence : ℚ
  db_record : Option ρ
  enrichment : Enrichment
deriving DecidableEq

/-- The read-only reference store `hermano_mayor.db`.  The three entity
tables appear as row lists (full-table scans in the source iterate them in
row order); the historical-aggregate queries and the
`location_aliases` LIKE-join of `_buscar_ubicacion_alias` touch further
tables and are modelled as opaque query functions. -/
structure Gateway where
  vehicles : List VehRow
  persons : List PersonRow
  locations : List LocRow
  locationAliasHit : Str → Option LocRow
  countVehicleAppearances : Nat → Nat
  getVehicleEvents : Nat → List Str
  getVehicleDrivers : Nat → List DriverRec
  countPersonAppearances : Str → Nat
  getPersonRoles : Str → List Str
  getPersonVehicles : Str → List RelVehicle
  countLocationAppearances : Nat → Nat
  getLocationEventTypes : Nat → List Str
  getLocationAliases : Nat → List Str

/-! ## Matcher pipeline -/

/-- `_buscar_vehiculo_exacto`: first row whose normalised plate equals the
normalised query plate (`fetchone` on the WHERE-filtered table). -/
def buscar_vehiculo_exacto (gw : Gateway) (matricula_norm : Str) : Option VehRow :=
  gw.vehicles.find? (fun r => sqlNormPlate r.plate = matricula_norm)

/-- `_buscar_persona_by_dni`: first row whose normalised DNI matches. -/
def buscar_persona_by_dni (gw : Gateway) (dni : Str) : Option PersonRow :=
  let dni_norm := normalizar_dni dni
  gw.persons.find? (fun r => sqlNormDni r.dni = dni_norm)

/-- `_buscar_ubicacion_exacta`: the dynamically-built WHERE clause adds one
equality per non-empty component. -/
def buscar_ubicacion_exacta (gw : Gateway) (tipo_via nombre_via numero : Str) : Option LocRow :=
  gw.locations.find? (fun r =>
    (tipo_via = [] ∨ upperL r.street_type = upperL tipo_via) ∧
    (nombre_via = [] ∨ upperL r.street_name = upperL nombre_via) ∧
    (numero = [] ∨ r.number = numero))

/-- The per-row weighted confidence of `_buscar_vehiculo_fuzzy`
(src/matcher_service.py lines 307-327): plate 0.7, brand 0.15, model 0.15,
the optional similarities defaulting to 0 when either side is empty. -/
def vehConfidence (unidec : Str → Str) (matricula_norm marca modelo : Str) (r : VehRow) : ℚ :=
  let sim_plate := fuzz_ratio_basic matricula_norm (normalizar_matricula r.plate) / 100
  let sim_brand := if marca ≠ [] ∧ r.brand ≠ [] then
      fuzz_ratio_basic (normalizar_texto unidec marca) (normalizar_texto unidec r.brand) / 100
    else 0
  let sim_model := if modelo ≠ [] ∧ r.model ≠ [] then
      fuzz_ratio_basic (normalizar_texto unidec modelo) (normalizar_texto unidec r.model) / 100
    else 0
  sim_plate * (7/10) + sim_brand * (3/20) + sim_model * (3/20)

/-- Stable insertion used to model Python's stable `list.sort`: the new
element `x` (earlier in the original list) is placed before the first
element it may precede. -/
def sInsert (bef : α → α → Bool) (x : α) : List α → List α
  | [] => [x]
  | y :: ys => if bef x y then x :: y :: ys else y :: sInsert bef x ys

/-- Stable insertion sort; with `bef x y = (key y ≤ key x)` this is Python's
stable `sort(key=..., reverse=True)`, with `bef x y = (key x ≤ key y)` the
ascending `sort(key=...)`. -/
def sSort (bef : α → α → Bool) : List α → List α
  | [] => []
  | x :: xs => sInsert bef x (sSort bef xs)

/-- Comparison for `candidates.sort(key=lambda x: x[1], reverse=True)`. -/
def befConfDesc {ρ : Type} (a b : ρ × ℚ) : Bool := b.2 ≤ a.2

/-- The `candidates` list of `_buscar_vehiculo_fuzzy`: scan all vehicle
rows (in gateway row order), keep `(row, confidence)` for confidences at or
above the 0.7 floor. -/
def vehFuzzyCandidates (unidec : Str → Str) (gw : Gateway)
    (matricula_norm marca modelo : Str) : List (VehRow × ℚ) :=
  gw.vehicles.filterMap (fun r =>
    let confidence := vehConfidence unidec matricula_norm marca modelo r
    if confidence ≥ 7/10 then some (r, confidence) else none)

/-- `_buscar_vehiculo_fuzzy`: the floor-filtered candidates, stable-sorted
descending by confidence, top 3. -/
def buscar_vehiculo_fuzzy (unidec : Str → Str) (gw : Gateway)
    (matricula_norm marca modelo : Str) : List (VehRow × ℚ) :=
  (sSort befConfDesc (vehFuzzyCandidates unidec gw matricula_norm marca modelo)).take 3

/-- The per-row weighted confidence of `_buscar_persona_by_nombre`
(name 0.4, family name 0.6). -/
def personaConfidence (unidec : Str → Str) (nombre apellidos : Str) (r : PersonRow) : ℚ :=
  let sim_nombre := if nombre ≠ [] ∧ r.nombre ≠ [] then
      fuzz_ratio_basic (normalizar_texto unidec nombre) (normalizar_texto unidec r.nombre) / 100
    else 0
  let sim_apellidos := if apellidos ≠ [] ∧ r.apellidos ≠ [] then
      fuzz_ratio_basic (normalizar_texto unidec apellidos) (normalizar_texto unidec r.apellidos) / 100
    else 0
  sim_nombre * (2/5) + sim_apellidos * (3/5)

/-- `_buscar_persona_by_nombre`: same floor / sort / top-3 shape as the
vehicle scan. -/
def buscar_persona_by_nombre (unidec : Str → Str) (gw : Gateway)
    (nombre apellidos : Str) : List (PersonRow × ℚ) :=
  let candidates := gw.persons.filterMap (fun r =>
    let confidence := personaConfidence unidec nombre apellidos r
    if confidence ≥ 7/10 then some (r, confidence) else none)
  (sSort befConfDesc candidates).take 3

/-- The per-row confidence of `_buscar_ubicacion_fuzzy`: street-name
similarity plus a flat 0.1 bonus when a house number was given and matches
(the cap to 1 is applied when the candidate is appended, below). -/
def ubicacionConfidence (unidec : Str → Str) (nombre_via numero : Str) (r : LocRow) : ℚ :=
  let sim_name := fuzz_ratio_basic (normalizar_texto unidec nombre_via)
      (normalizar_texto unidec r.street_name) / 100
  let bonus_numero : ℚ := if numero ≠ [] ∧ r.number = numero then 1/10 else 0
  sim_name + bonus_numero

/-- `_buscar_ubicacion_fuzzy`: the floor test uses the uncapped confidence,
the stored value is `min(confidence, 1.0)`.  `tipo_via` is accepted and
ignored, as in the source. -/
def buscar_ubicacion_fuzzy (unidec : Str → Str) (gw : Gateway)
    (tipo_via nombre_via numero : Str) : List (LocRow × ℚ) :=
  let candidates := gw.locations.filterMap (fun r =>
    let confidence := ubicacionConfidence unidec nombre_via numero r
    if confidence ≥ 7/10 then some (r, min confidence 1) else none)
  (sSort befConfDesc candidates).take 3

/-- `_build_vehiculo_match`: attach the titular (when `dni_titular` is
truthy and found) and the historical aggregates (when `vehicle_id` is
truthy, i.e. non-zero). -/
def build_vehiculo_match (gw : Gateway) (entidad : Vehiculo) (db_record : VehRow)
    (match_type : String) (confidence : ℚ) : MatchResult Vehiculo VehRow :=
  let tit := if db_record.dni_titular ≠ [] then
      (buscar_persona_by_dni gw db_record.dni_titular).map
        (fun t => Titular.mk t.dni t.nombre t.apellidos)
    else none
  ⟨entidad, match_type, confidence, some db_record,
    ⟨tit,
     if db_record.vehicle_id ≠ 0 then some (gw.countVehicleAppearances db_record.vehicle_id) else none,
     if db_record.vehicle_id ≠ 0 then some (gw.getVehicleEvents db_record.vehicle_id) else none,
     if db_record.vehicle_id ≠ 0 then some (gw.getVehicleDrivers db_record.vehicle_id) else none,
     none, none, none, none, none⟩⟩

/-- `_build_persona_match`. -/
def build_persona_match (gw : Gateway) (entidad : Persona) (db_record : PersonRow)
    (match_type : String) (confidence : ℚ) : MatchResult Persona PersonRow :=
  ⟨entidad, match_type, confidence, some db_record,
    ⟨none,
     if db_record.dni ≠ [] then some (gw.countPersonAppearances db_record.dni) else none,
     none, none,
     if db_record.dni ≠ [] then some (gw.getPersonRoles db_record.dni) else none,
     if db_record.dni ≠ [] then some (gw.getPersonVehicles db_record.dni) else none,
     none, none, none⟩⟩

/-- `_build_ubicacion_match`. -/
def build_ubicacion_match (gw : Gateway) (entidad : Ubicacion) (db_record : LocRow)
    (match_type : String) (confidence : ℚ) : MatchResult Ubicacion LocRow :=
  ⟨entidad, match_type, confidence, some db_record,
    ⟨none,
     if db_record.location_id ≠ 0 then some (gw.countLocationAppearances db_record.location_id) else none,
     none, none, none, none,
     if db_record.location_id ≠ 0 then some (gw.getLocationEventTypes db_record.location_id) else none,
     if db_record.location_id ≠ 0 then some (gw.getLocationAliases db_record.location_id) else none,
     none⟩⟩

/-- The `SIN_COINCIDENCIA` result for a vehicle. -/
def noMatchVehiculo (v : Vehiculo) : MatchResult Vehiculo VehRow :=
  ⟨v, "SIN_COINCIDENCIA", 0, none, Enrichment.empty⟩

/-- The `SIN_COINCIDENCIA` result for a person. -/
def noMatchPersona (p : Persona) : MatchResult Persona PersonRow :=
  ⟨p, "SIN_COINCIDENCIA", 0, none, Enrichment.empty⟩

/-- The `SIN_COINCIDENCIA` result for a location. -/
def noMatchUbicacion (u : Ubicacion) : MatchResult Ubicacion LocRow :=
  ⟨u, "SIN_COINCIDENCIA", 0, none, Enrichment.empty⟩

/-- `_match_vehiculo_single` (src/matcher_service.py lines 237-274). -/
def match_vehiculo_single (unidec : Str → Str) (gw : Gateway)
    (vehiculo : Vehiculo) : MatchResult Vehiculo VehRow :=
  let matricula := trimL vehiculo.matricula
  let marca := trimL vehiculo.marca
  let modelo := trimL vehiculo.modelo
  if matricula = [] then noMatchVehiculo vehiculo
  else
    let matricula_norm := normalizar_matricula matricula
    match buscar_vehiculo_exacto gw matricula_norm with
    | some r => build_vehiculo_match gw vehiculo r "EXACTO" 1
    | none =>
      match buscar_vehiculo_fuzzy unidec gw matricula_norm marca modelo with
      | (best, confidence) :: _ =>
        if confidence ≥ 17/20 then build_vehiculo_match gw vehiculo best "PARCIAL" confidence
        else noMatchVehiculo vehiculo
      | [] => noMatchVehiculo vehiculo

/-- `_match_persona_single` (src/matcher_service.py lines 427-454). -/
def match_persona_single (unidec : Str → Str) (gw : Gateway)
    (persona : Persona) : MatchResult Persona PersonRow :=
  let dni := trimL persona.dni
  let nombre := trimL persona.nombre
  let apellidos := trimL persona.apellidos
  match (if dni ≠ [] then buscar_persona_by_dni gw dni else none) with
  | some r => build_persona_match gw persona r "EXACTO" 1
  | none =>
    if nombre ≠ [] ∨ apellidos ≠ [] then
      match buscar_persona_by_nombre unidec gw nombre apellidos with
      | (best, confidence) :: _ =>
        if confidence ≥ 17/20 then build_persona_match gw persona best "PARCIAL" confidence
        else noMatchPersona persona
      | [] => noMatchPersona persona
    else noMatchPersona persona

/-- `_match_ubicacion_single` (src/matcher_service.py lines 599-638); the
alias hit yields `EXACTO` with the fixed constant 0.95. -/
def match_ubicacion_single (unidec : Str → Str) (gw : Gateway)
    (u : Ubicacion) : MatchResult Ubicacion LocRow :=
  let tipo_via := trimL u.tipo_via
  let nombre_via := trimL u.nombre_via
  let numero := trimL u.numero
  if nombre_via = [] then noMatchUbicacion u
  else
    match buscar_ubicacion_exacta gw tipo_via nombre_via numero with
    | some r => build_ubicacion_match gw u r "EXACTO" 1
    | none =>
      match gw.locationAliasHit nombre_via with
      | some r => build_ubicacion_match gw u r "EXACTO" (19/20)
      | none =>
        match buscar_ubicacion_fuzzy unidec gw tipo_via nombre_via numero with
        | (best, confidence) :: _ =>
          if confidence ≥ 17/20 then build_ubicacion_match gw u best "PARCIAL" confidence
          else noMatchUbicacion u
        | [] => noMatchUbicacion u

/-- The `ERROR` result that `_match_vehiculos` builds in its `except` arm. -/
def errorVehiculoMatch (v : Vehiculo) (e : Str) : MatchResult Vehiculo VehRow :=
  ⟨v, "ERROR", 0, none, Enrichment.ofError e⟩

/-- The `ERROR` result that `_match_personas` builds in its `except` arm. -/
def errorPersonaMatch (p : Persona) (e : Str) : MatchResult Persona PersonRow :=
  ⟨p, "ERROR", 0, none, Enrichment.ofError e⟩

/-- `_match_vehiculos` (src/matcher_service.py lines 216-235): the loop body
`try: ... except Exception as e: ...` is modelled by a per-entity resolver
returning `Except` (the only exceptions, database failures, surface from the
gateway); a raised exception becomes an `ERROR` match and the loop
continues. -/
def match_vehiculos (single : Vehiculo → Except Str (MatchResult Vehiculo VehRow))
    (vehiculos : List Vehiculo) : List (MatchResult Vehiculo VehRow) :=
  vehiculos.map (fun v =>
    match single v with
    | Except.ok m => m
    | Except.error e => errorVehiculoMatch v e)

/-- `_match_personas` (src/matcher_service.py lines 407-425), same shape. -/
def match_personas (single : Persona → Except Str (MatchResult Persona PersonRow))
    (personas : List Persona) : List (MatchResult Persona PersonRow) :=
  personas.map (fun p =>
    match single p with
    | Except.ok m => m
    | Except.error e => errorPersonaMatch p e)

/-- The `ERROR` result that `_match_ubicaciones` builds in its `except` arm. -/
def errorUbicacionMatch (u : Ubicacion) (e : Str) : MatchResult Ubicacion LocRow :=
  ⟨u, "ERROR", 0, none, Enrichment.ofError e⟩

/-- `_match_ubicaciones` (src/matcher_service.py lines 579-597), same shape. -/
def match_ubicaciones (single : Ubicacion → Except Str (MatchResult Ubicacion LocRow))
    (ubicaciones : List Ubicacion) : List (MatchResult Ubicacion LocRow) :=
  ubicaciones.map (fun u =>
    match single u with
    | Except.ok m => m
    | Except.error e => errorUbicacionMatch u e)

/-! ## Annotator (src/annotator_service.py)

The annotator consumes the matcher output serialised to dictionaries; only
the fields it reads (`entidad_original`, `match_type`, `confidence`) are
modelled.  `AnnVehiculo`/`AnnPersona`/`AnnUbicacion` are the
`entidad_original` dictionaries with `.get(..., "")` defaults. -/

/-- `entidad_original` of a vehicle match as read by `_construir_marcas`. -/
structure AnnVehiculo where
  matricula : Str
  marca : Str
  modelo : Str
deriving DecidableEq

/-- `entidad_original` of a person match as read by `_construir_marcas`. -/
structure AnnPersona where
  dni : Str
  nombre : Str
  apellidos : Str
deriving DecidableEq

/-- `entidad_original` of a location match as read by `_construir_marcas`. -/
structure AnnUbicacion where
  texto_completo : Str
  nombre_via : Str
deriving DecidableEq

/-- A match dictionary as consumed by the annotator. -/
structure AnnMatch (ε : Type) where
  entidad_original : ε
  match_type : String
  confidence : ℚ
deriving DecidableEq

/-- The `matches` dictionary consumed by `anotar_texto`. -/
structure AnnMatches where
  vehiculos : List (AnnMatch AnnVehiculo)
  personas : List (AnnMatch AnnPersona)
  ubicaciones : List (AnnMatch AnnUbicacion)
deriving DecidableEq

/-- `AnnotatorService.THRESHOLD_EXACTO`. -/
def THRESHOLD_EXACTO : ℚ := 19/20

/-- `AnnotatorService.THRESHOLD_PARCIAL`. -/
def THRESHOLD_PARCIAL : ℚ := 7/10

/-- A `(start, end, tipo_marca, texto_entidad)` tuple (the `end` key is a
Lean keyword, so it is called `stop` here).  `tipo` is `"@"` or `"**"`. -/
structure Marca where
  start : Nat
  stop : Nat
  tipo : String
  texto : Str
deriving DecidableEq

/-- Does `buscar` occur in `texto` at position `pos` (Python
`texto[pos:pos+len(buscar)] == buscar`)? -/
def isSubAt (texto buscar : Str) (pos : Nat) : Bool :=
  (texto.drop pos).take buscar.length = buscar

/-- Scan positions `pos, pos+1, ...` for the first occurrence; `fuel` bounds
the scan (it is called with enough fuel to reach the end of `texto`). -/
def findFromAux (texto buscar : Str) : Nat → Nat → Option Nat
  | _, 0 => none
  | pos, fuel + 1 =>
    if isSubAt texto buscar pos then some pos else findFromAux texto buscar (pos + 1) fuel

/-- Python `texto.find(buscar, start)` (with `none` for `-1`): the least
position `p ≥ start` (and `p ≤ len(texto)`) where `buscar` occurs. -/
def findFrom (texto buscar : Str) (start : Nat) : Option Nat :=
  if start ≤ texto.length then findFromAux texto buscar start (texto.length + 1 - start) else none

/-- The `while True` loop of `_buscar_texto_en_original`: collect matches,
restarting each search at `pos + 1`.  The loop runs at most
`len(texto) + 1` times because the found position strictly increases and is
bounded by `len(texto)`, so the fuel never runs out. -/
def buscarAux (texto buscar : Str) : Nat → Nat → List (Nat × Nat)
  | _, 0 => []
  | start, fuel + 1 =>
    match findFrom texto buscar start with
    | none => []
    | some pos => (pos, pos + buscar.length) :: buscarAux texto buscar (pos + 1) fuel

/-- `_buscar_texto_en_original` (src/annotator_service.py lines 168-182):
all case-insensitive occurrences, found on the lowered strings.  (Lowering
is length-preserving in the model, so using the lowered pattern's length
for `end` agrees with the source's `pos + len(buscar)`.) -/
def buscar_texto_en_original (texto buscar : Str) : List (Nat × Nat) :=
  buscarAux (lowerL texto) (lowerL buscar) 0 (texto.length + 1)

/-- One `for start, end in posiciones: marcas.append(...)` loop. -/
def marcasDeCampo (texto buscar : Str) (tipo : String) : List Marca :=
  (buscar_texto_en_original texto buscar).map (fun p => ⟨p.1, p.2, tipo, buscar⟩)

/-- Is the match accepted for marking
(`match_type in ("EXACTO", "PARCIAL") and confidence >= THRESHOLD_PARCIAL`)? -/
def annAccepted {ε : Type} (m : AnnMatch ε) : Prop :=
  (m.match_type = "EXACTO" ∨ m.match_type = "PARCIAL") ∧ m.confidence ≥ THRESHOLD_PARCIAL

instance {ε : Type} (m : AnnMatch ε) : Decidable (annAccepted m) := by
  unfold annAccepted; infer_instance

/-- The `tipo_marca = "@" if match["confidence"] >= self.THRESHOLD_EXACTO
else "**"` line shared by the three entity loops of `_construir_marcas`. -/
def tipoMarca {ε : Type} (m : AnnMatch ε) : String :=
  if m.confidence ≥ THRESHOLD_EXACTO then "@" else "**"

/-- The candidate markers of one vehicle match
(src/annotator_service.py lines 92-115): the plate always (at the style of
the confidence), brand and model only at `confidence >= THRESHOLD_EXACTO`
and then always with `"@"`. -/
def vehiculoMarcas (texto : Str) (m : AnnMatch AnnVehiculo) : List Marca :=
  if annAccepted m then
    (if m.entidad_original.matricula ≠ [] then
        marcasDeCampo texto m.entidad_original.matricula (tipoMarca m) else []) ++
    (if m.entidad_original.marca ≠ [] ∧ m.confidence ≥ THRESHOLD_EXACTO then
        marcasDeCampo texto m.entidad_original.marca "@" else []) ++
    (if m.entidad_original.modelo ≠ [] ∧ m.confidence ≥ THRESHOLD_EXACTO then
        marcasDeCampo texto m.entidad_original.modelo "@" else [])
  else []

/-- The candidate markers of one person match
(src/annotator_service.py lines 118-139): DNI, given name and family name
are all marked at the accepted match's style, with no extra threshold on
the name fields. -/
def personaMarcas (texto : Str) (m : AnnMatch AnnPersona) : List Marca :=
  if annAccepted m then
    (if m.entidad_original.dni ≠ [] then
        marcasDeCampo texto m.entidad_original.dni (tipoMarca m) else []) ++
    (if m.entidad_original.nombre ≠ [] then
        marcasDeCampo texto m.entidad_original.nombre (tipoMarca m) else []) ++
    (if m.entidad_original.apellidos ≠ [] then
        marcasDeCampo texto m.entidad_original.apellidos (tipoMarca m) else [])
  else []

/-- The candidate markers of one location match
(src/annotator_service.py lines 142-158): the full location text when
present, otherwise the street name. -/
def ubicacionMarcas (texto : Str) (m : AnnMatch AnnUbicacion) : List Marca :=
  if annAccepted m then
    if m.entidad_original.texto_completo ≠ [] then
      marcasDeCampo texto m.entidad_original.texto_completo (tipoMarca m)
    else if m.entidad_original.nombre_via ≠ [] then
      marcasDeCampo texto m.entidad_original.nombre_via (tipoMarca m)
    else []
  else []

/-- Candidate-marker test `not (end <= r_start or start >= r_end)` of
`_resolver_solapamientos`. -/
def overlapsB (m r : Marca) : Bool :=
  !(decide (m.stop ≤ r.start) || decide (m.start ≥ r.stop))

/-- Outcome of the inner `for r in resultado` loop of
`_resolver_solapamientos` for one candidate: drop the candidate
(`solapa = True`), or keep it, possibly evicting one accepted marker
(`resultado.remove(r)` followed by `break`). -/
inductive ScanDecision
  | skip
  | keep (evicted : Option Marca)
deriving DecidableEq

/-- The inner loop of `_resolver_solapamientos` (src/annotator_service.py
lines 200-215): the first overlapping accepted marker decides, except in
the same-style-not-longer case, which just continues scanning. -/
def scanSolapa (m : Marca) : List Marca → ScanDecision
  | [] => ScanDecision.keep none
  | r :: rs =>
    if overlapsB m r then
      if r.tipo = "@" ∧ m.tipo = "**" then ScanDecision.skip
      else if m.tipo = "@" ∧ r.tipo = "**" then ScanDecision.keep (some r)
      else if ((m.stop : Int) - m.start) > ((r.stop : Int) - r.start) then ScanDecision.skip
      else scanSolapa m rs
    else scanSolapa m rs

/-- One iteration of the outer loop of `_resolver_solapamientos`:
`resultado.remove(r)` removes the first equal element, `append` adds at the
end. -/
def resolverStep (resultado : List Marca) (m : Marca) : List Marca :=
  match scanSolapa m resultado with
  | ScanDecision.skip => resultado
  | ScanDecision.keep none => resultado ++ [m]
  | ScanDecision.keep (some r) => resultado.erase r ++ [m]

/-- Sort key `(x[0], x[1] - x[0])` of `_resolver_solapamientos`, as a stable
"may precede" test (ascending lexicographic on start, then length). -/
def befStartLen (a b : Marca) : Bool :=
  decide (a.start < b.start) ||
    (decide (a.start = b.start) &&
      decide (((a.stop : Int) - a.start) ≤ ((b.stop : Int) - b.start)))

/-- `_resolver_solapamientos` (src/annotator_service.py lines 184-220). -/
def resolver_solapamientos (marcas : List Marca) : List Marca :=
  if marcas = [] then []
  else (sSort befStartLen marcas).foldl resolverStep []

/-- Stable "may precede" test for the final `marcas.sort(key=lambda x: x[0])`. -/
def befStart (a b : Marca) : Bool := decide (a.start ≤ b.start)

/-- `_construir_marcas` (src/annotator_service.py lines 81-166): vehicle,
person and location candidates in input order, overlap resolution, then the
stable sort by start.  (`matches` is a Lean keyword, hence `ms`.) -/
def construir_marcas (texto : Str) (ms : AnnMatches) : List Marca :=
  let marcas :=
    (ms.vehiculos.map (vehiculoMarcas texto)).flatten ++
    (ms.personas.map (personaMarcas texto)).flatten ++
    (ms.ubicaciones.map (ubicacionMarcas texto)).flatten
  sSort befStart (resolver_solapamientos marcas)

/-- `@span` / `**span**` wrapping of `_aplicar_marcas`. -/
def wrapMarca (tipo : String) (s : Str) : Str :=
  if tipo = "@" then '@' :: s else ('*' :: '*' :: s) ++ ['*', '*']

/-- One iteration of `_aplicar_marcas`:
`resultado = resultado[:start] + nuevo_texto + resultado[end:]` where
`nuevo_texto` wraps `texto[start:end]` taken from the *original* text. -/
def spliceMarca (texto : Str) (m : Marca) (resultado : Str) : Str :=
  resultado.take m.start ++
    wrapMarca m.tipo ((texto.drop m.start).take (m.stop - m.start)) ++
    resultado.drop m.stop

/-- `_aplicar_marcas` (src/annotator_service.py lines 226-252): the loop
over `reversed(marcas)` processes the last marker first, i.e. it is a right
fold over `marcas`. -/
def aplicar_marcas (texto : Str) (marcas : List Marca) : Str :=
  if marcas = [] then texto
  else marcas.foldr (spliceMarca texto) texto

/-! ## Annotator Mode B (offset-indexed annotation list)

`annotate_positions` does not exist in `src/annotator_service.py`; only its
caller survives in the sources (`orchestrator.enrich_report` consumes
`resultado_anotacion["anotaciones"]`).  It is therefore modelled from the
spec (§4.4 Mode B). -/

/-- Modelled from the spec: an input entity of Mode B, which "already
carries a `{start,end}` offset (supplied upstream)" or lacks one. -/
structure OffEntity where
  label : Str
  offset : Option (Nat × Nat)
deriving DecidableEq

/-- Modelled from the spec: a Match as consumed by Mode B (`db_data` is an
opaque payload type). -/
structure OffMatch (δ : Type) where
  entidad : OffEntity
  matchKind : String
  db_data : Option δ
deriving DecidableEq

/-- Modelled from the spec: the three per-type match lists handed to
`annotate_positions`. -/
structure PosInput (δ : Type) where
  vehiculos : List (OffMatch δ)
  personas : List (OffMatch δ)
  ubicaciones : List (OffMatch δ)
deriving DecidableEq

/-- Modelled from the spec: one record of the `annotations` list
(`{id, entity, type, start, end, match, db_data}`). -/
structure PosRecord (δ : Type) where
  ident : String
  entity : Str
  typ : String
  start : Nat
  stop : Nat
  matchKind : String
  db_data : Option δ
deriving DecidableEq

/-- Modelled from the spec: the per-type record list — entities lacking an
offset are skipped, the survivors get the synthetic per-type-prefixed
identifiers `v0, v1, …` / `p0, …` / `u0, …`. -/
def mkPosRecords {δ : Type} (pref typ : String) (l : List (OffMatch δ)) : List (PosRecord δ) :=
  (l.filterMap (fun m => m.entidad.offset.map (fun se => (m, se)))).enum.map
    (fun p => ⟨pref ++ toString p.1, p.2.1.entidad.label, typ, p.2.2.1, p.2.2.2,
               p.2.1.matchKind, p.2.1.db_data⟩)

/-- Stable "may precede" test for sorting Mode B records by `start`. -/
def befPosStart {δ : Type} (a b : PosRecord δ) : Bool := decide (a.start ≤ b.start)

/-- Modelled from the spec: `annotate_positions(original_text, matches)`
returns the original text and one annotation record per offset-bearing
match, sorted by ascending `start`. -/
def annotate_positions {δ : Type} (texto : Str) (ms : PosInput δ) :
    Str × List (PosRecord δ) :=
  (texto,
   sSort befPosStart
     (mkPosRecords "v" "VEHICLE" ms.vehiculos ++
      mkPosRecords "p" "PERSON" ms.personas ++
      mkPosRecords "u" "LOCATION" ms.ubicaciones))

/-- Does an Offset-mode match carry a `{start,end}` offset? -/
def hasOffset {δ : Type} (m : OffMatch δ) : Bool := m.entidad.offset.isSome

/-! ## Spec-side confidence formulas (for the refinement claim C3)

These definitions follow the words of the spec (§4.3 step 4), not the
source, and are compared with the source-derived scans. -/

/-- A per-field similarity ratio scaled to `[0,1]` (0 when either side of
the optional field is missing/empty). -/
def fieldSim (unidec : Str → Str) (a b : Str) : ℚ :=
  if a ≠ [] ∧ b ≠ [] then
    fuzz_ratio_basic (normalizar_texto unidec a) (normalizar_texto unidec b) / 100
  else 0

/-- Spec formula: vehicle confidence = plate 0.70 + brand 0.15 + model 0.15. -/
def specVehConfidence (unidec : Str → Str) (matricula_norm marca modelo : Str)
    (r : VehRow) : ℚ :=
  (7/10) * (fuzz_ratio_basic matricula_norm (normalizar_matricula r.plate) / 100) +
  (3/20) * fieldSim unidec marca r.brand +
  (3/20) * fieldSim unidec modelo r.model

/-- Spec formula: person confidence = given-name 0.40 + family-name 0.60. -/
def specPersonaConfidence (unidec : Str → Str) (nombre apellidos : Str)
    (r : PersonRow) : ℚ :=
  (2/5) * fieldSim unidec nombre r.nombre + (3/5) * fieldSim unidec apellidos r.apellidos

/-- Spec formula: location confidence = street-name similarity + a flat 0.10
bonus when a house number was supplied and matches exactly, capped at 1.0. -/
def specUbicacionConfidence (unidec : Str → Str) (nombre_via numero : Str)
    (r : LocRow) : ℚ :=
  min (fuzz_ratio_basic (normalizar_texto unidec nombre_via) (normalizar_texto unidec r.street_name) / 100 +
       (if numero ≠ [] ∧ r.number = numero then 1/10 else 0)) 1

/-! ## Support definitions for the annotation-rewrite claims (C1, C6) -/

/-- Two markers are disjoint as half-open intervals `[start, stop)`. -/
def marcasDisjoint (a b : Marca) : Prop := a.stop ≤ b.start ∨ b.stop ≤ a.start

instance (a b : Marca) : Decidable (marcasDisjoint a b) := by
  unfold marcasDisjoint; infer_instance

/-- The markup overhead of one marker: `@span` adds 1 character,
`**span**` adds 4. -/
def overhead (m : Marca) : Nat := if m.tipo = "@" then 1 else 4

/-- Reference rendering of a marked text: the unmarked slice up to the next
marker, the wrapped marker span, then the rest, recursively. -/
def renderMarcas (texto : Str) (pos : Nat) : List Marca → Str
  | [] => texto.drop pos
  | m :: ms =>
    (texto.drop pos).take (m.start - pos) ++
      wrapMarca m.tipo ((texto.drop m.start).take (m.stop - m.start)) ++
      renderMarcas texto m.stop ms

/-- The markers form a chain of intervals inside `[pos, len]`:
each is well-formed, within bounds, and starts after the previous stop. -/
def chainedFrom (pos len : Nat) : List Marca → Prop
  | [] => True
  | m :: ms => pos ≤ m.start ∧ m.start ≤ m.stop ∧ m.stop ≤ len ∧ chainedFrom m.stop len ms

/-- How far a character at original index `i` (outside every marked span) is
shifted to the right in the rewritten text: the total overhead of the
markers that end at or before `i`. -/
def shiftAt (marcas : List Marca) (i : Nat) : Nat :=
  ((marcas.filter (fun m => m.stop ≤ i)).map overhead).sum

/-! ## Concrete fixtures used by witnesses and counterexamples -/

/-- A gateway whose aggregate queries all return empty data. -/
def mkGw (vs : List VehRow) (ps : List PersonRow) (ls : List LocRow) : Gateway :=
  ⟨vs, ps, ls, fun _ => none, fun _ => 0, fun _ => [], fun _ => [],
   fun _ => 0, fun _ => [], fun _ => [], fun _ => 0, fun _ => [], fun _ => []⟩

/-- C3 witness data: one row per table, chosen to pass the 0.7 floor. -/
def c3VRow : VehRow := ⟨1, ['A'], [], [], []⟩

/-- C3 witness person row. -/
def c3PRow : PersonRow := ⟨[], ['J'], ['M'], [], [], [], [], []⟩

/-- C3 witness location row (the house number matches, exercising the
+0.10 bonus and the cap at 1.0). -/
def c3LRow : LocRow := ⟨1, [], ['R'], ['7'], [], [], [], 0, 0⟩

/-- C3 witness gateway. -/
def c3Gw : Gateway := mkGw [c3VRow] [c3PRow] [c3LRow]

/-- C4 witness entity that resolves successfully. -/
def c4Veh1 : Vehiculo := ⟨['A'], [], []⟩

/-- C4 witness entity whose resolution raises. -/
def c4Veh2 : Vehiculo := ⟨['X'], [], []⟩

/-- C4 witness per-vehicle resolver: raises exactly on `c4Veh2`. -/
def c4Single (v : Vehiculo) : Except Str (MatchResult Vehiculo VehRow) :=
  if v.matricula = ['X'] then Except.error ['d', 'b'] else Except.ok (noMatchVehiculo v)

/-- C4 witness person entity. -/
def c4Per : Persona := ⟨['P'], [], []⟩

/-- C4 witness per-person resolver: always raises. -/
def c4PSingle (_ : Persona) : Except Str (MatchResult Persona PersonRow) :=
  Except.error ['e']

/-- C4 witness location entity that resolves successfully. -/
def c4Ubi1 : Ubicacion := ⟨[], ['V'], []⟩

/-- C4 witness location entity whose resolution raises. -/
def c4Ubi2 : Ubicacion := ⟨[], ['W'], []⟩

/-- C4 witness per-location resolver: raises exactly on `c4Ubi2`. -/
def c4USingle (u : Ubicacion) : Except Str (MatchResult Ubicacion LocRow) :=
  if u.nombre_via = ['W'] then Except.error ['u', 'e']
  else Except.ok (noMatchUbicacion u)

/-- C7 witness row: the tab inside the plate makes the SQL-normalised exact
lookup miss while the fuzzy plate normalisation strips it. -/
def c7Row : VehRow := ⟨1, ['A', '\t', 'B'], ['G'], [], []⟩

/-- C7 witness gateway. -/
def c7Gw : Gateway := mkGw [c7Row] [] []

/-- C7 witness query entity (plate + brand match gives confidence exactly
0.85). -/
def c7Veh : Vehiculo := ⟨['A', 'B'], ['G'], []⟩

/-- C8 witness vehicle row. -/
def c8VRow : VehRow := ⟨2, ['C', 'D'], [], [], []⟩

/-- C8 witness person row. -/
def c8PRow : PersonRow := ⟨['9', 'X'], ['J'], ['M'], [], [], [], [], []⟩

/-- C8 witness location row. -/
def c8LRow : LocRow := ⟨3, ['C', 'L'], ['R', 'I', 'B'], ['8'], [], [], [], 0, 0⟩

/-- C8 witness gateway. -/
def c8Gw : Gateway := mkGw [c8VRow] [c8PRow] [c8LRow]

/-- C8 witness vehicle entity (lower-case plate, exact hit after
normalisation). -/
def c8Veh : Vehiculo := ⟨['c', 'd'], [], []⟩

/-- C8 witness person entity. -/
def c8Per : Persona := ⟨['9', 'x'], [], []⟩

/-- C8 witness location entity. -/
def c8Ubi : Ubicacion := ⟨[], ['r', 'i', 'b'], ['8']⟩

/-- C2 counterexample: an accepted `PARCIAL` person match with confidence
0.85 < 0.95 whose given name occurs in the text. -/
def c2Matches : AnnMatches :=
  ⟨[], [⟨⟨[], ['J', 'O'], []⟩, "PARCIAL", 17/20⟩], []⟩

/-- C2 counterexample text (a case-insensitive occurrence of the name). -/
def c2Texto : Str := ['j', 'o']

/-- C2 witness person match (accepted, below the exact threshold). -/
def c2PerMatch : AnnMatch AnnPersona := ⟨⟨[], ['J', 'O'], []⟩, "PARCIAL", 17/20⟩

/-- C2 witness vehicle match (accepted, below the exact threshold, with a
brand that occurs in the text but must not be marked). -/
def c2VehMatch : AnnMatch AnnVehiculo := ⟨⟨['j', 'o'], ['o'], []⟩, "PARCIAL", 17/20⟩

/-- C2 witness location match whose full location text occurs in the text. -/
def c2UbiMatch : AnnMatch AnnUbicacion := ⟨⟨['j', 'o'], []⟩, "PARCIAL", 17/20⟩

/-- C2 witness location match without a full location text, falling back to
the street name. -/
def c2UbiMatch2 : AnnMatch AnnUbicacion := ⟨⟨[], ['o']⟩, "EXACTO", 1⟩

/-- C6 witness text. -/
def c6Texto : Str := ['a', 'b', 'c', 'd', 'e', 'f']

/-- C6 witness markers: one Strong and one Weak span, disjoint and sorted. -/
def c6Marcas : List Marca := [⟨1, 2, "@", ['x']⟩, ⟨3, 5, "**", ['y']⟩]

/-- C5 witness input: one offset-bearing and one offset-less vehicle match
and an offset-bearing location match. -/
def c5Input : PosInput Nat :=
  ⟨[⟨⟨['v', '1'], some (7, 9)⟩, "exact", some 1⟩, ⟨⟨['v', '2'], none⟩, "none", none⟩],
   [],
   [⟨⟨['u', '1'], some (2, 4)⟩, "partial", none⟩]⟩

/-- C1 failing marker list: two same-style overlapping markers; the second
is shorter, so by the documented rule it should evict the first, but the
code keeps both. -/
def c1Marcas : List Marca := [⟨0, 10, "**", ['a']⟩, ⟨2, 4, "**", ['b']⟩]

/-! ## Helper lemmas about the stable sort -/

theorem mem_sInsert {α : Type} (bef : α → α → Bool) (x : α) (l : List α) (z : α) :
    z ∈ sInsert bef x l ↔ z = x ∨ z ∈ l := by
  induction l with
  | nil => simp [sInsert]
  | cons y ys ih =>
    simp only [sInsert]
    by_cases h : bef x y
    · rw [if_pos h]
      simp [List.mem_cons]
    · rw [if_neg h]
      simp [List.mem_cons, ih]
      tauto

theorem mem_sSort {α : Type} (bef : α → α → Bool) (l : List α) (z : α) :
    z ∈ sSort bef l ↔ z ∈ l := by
  induction l with
  | nil => simp [sSort]
  | cons x xs ih => simp [sSort, mem_sInsert, ih]

theorem pairwise_sInsert {α : Type} {R : α → α → Prop} {bef : α → α → Bool}
    (hyes : ∀ a b, bef a b = true → R a b) (hno : ∀ a b, bef a b = false → R b a)
    (htrans : ∀ a b c, R a b → R b c → R a c) (x : α) :
    ∀ l : List α, l.Pairwise R → (sInsert bef x l).Pairwise R := by
  intro l
  induction l with
  | nil => intro _; simp [sInsert]
  | cons y ys ih =>
    intro hp
    rw [List.pairwise_cons] at hp
    obtain ⟨hy, hys⟩ := hp
    simp only [sInsert]
    by_cases h : bef x y
    · rw [if_pos h]
      rw [List.pairwise_cons]
      refine ⟨?_, List.pairwise_cons.mpr ⟨hy, hys⟩⟩
      intro z hz
      rcases List.mem_cons.mp hz with rfl | hz'
      · exact hyes _ _ h
      · exact htrans _ _ _ (hyes _ _ h) (hy z hz')
    · rw [if_neg h]
      rw [List.pairwise_cons]
      refine ⟨?_, ih hys⟩
      intro z hz
      rcases (mem_sInsert bef x ys z).mp hz with rfl | hz'
      · exact hno _ _ (by simpa using h)
      · exact hy z hz'

theorem pairwise_sSort {α : Type} {R : α → α → Prop} {bef : α → α → Bool}
    (hyes : ∀ a b, bef a b = true → R a b) (hno : ∀ a b, bef a b = false → R b a)
    (htrans : ∀ a b c, R a b → R b c → R a c) :
    ∀ l : List α, (sSort bef l).Pairwise R := by
  intro l
  induction l with
  | nil => simp [sSort]
  | cons x xs ih => exact pairwise_sInsert hyes hno htrans x _ ih

theorem filter_sInsert_conf {ρ : Type} (x : ρ × ℚ) (l : List (ρ × ℚ)) (c : ℚ) :
    (sInsert befConfDesc x l).filter (fun p => p.2 = c) =
      if x.2 = c then x :: l.filter (fun p => p.2 = c)
      else l.filter (fun p => p.2 = c) := by
  induction l with
  | nil => by_cases h : x.2 = c <;> simp [sInsert, List.filter, h]
  | cons y ys ih =>
    simp only [sInsert]
    by_cases hb : befConfDesc x y
    · by_cases hx : x.2 = c <;> by_cases hy : y.2 = c <;>
        simp [hb, List.filter_cons, hx, hy]
    · have hlt : x.2 < y.2 := by
        have hb' : ¬ (y.2 ≤ x.2) := by simpa [befConfDesc] using hb
        exact lt_of_not_le hb'
      by_cases hy : y.2 = c
      · have hx : ¬ x.2 = c := fun h => absurd hy (by rw [← h]; exact ne_of_gt hlt)
        simp [hb, List.filter_cons, hy, hx, ih]
      · by_cases hx : x.2 = c <;> simp [hb, List.filter_cons, hy, hx, ih]

theorem filter_sSort_conf {ρ : Type} (l : List (ρ × ℚ)) (c : ℚ) :
    (sSort befConfDesc l).filter (fun p => p.2 = c) = l.filter (fun p => p.2 = c) := by
  induction l with
  | nil => rfl
  | cons x xs ih =>
    simp only [sSort]
    rw [filter_sInsert_conf]
    by_cases hx : x.2 = c <;> simp [List.filter_cons, hx, ih]

/-! ## Helper lemmas about `countEq` (src/similarity.py) -/

theorem countEq_le_left : ∀ a b : Str, countEq a b ≤ a.length := by
  intro a
  induction a with
  | nil => intro b; cases b <;> simp [countEq]
  | cons x xs ih =>
    intro b
    cases b with
    | nil => simp [countEq]
    | cons y ys =>
      have := ih ys
      by_cases h : x = y <;> simp [countEq, h] <;> omega

theorem countEq_comm : ∀ a b : Str, countEq a b = countEq b a := by
  intro a
  induction a with
  | nil => intro b; cases b <;> simp [countEq]
  | cons x xs ih =>
    intro b
    cases b with
    | nil => simp [countEq]
    | cons y ys =>
      by_cases h : x = y <;> simp [countEq, h, ih ys, eq_comm]

/-! ## Helper lemmas about the substring scan (`_buscar_texto_en_original`) -/

theorem findFromAux_some {t b : Str} : ∀ (fuel pos p : Nat),
    findFromAux t b pos fuel = some p →
    pos ≤ p ∧ p < pos + fuel ∧ isSubAt t b p ∧
      ∀ q, pos ≤ q → q < p → ¬ isSubAt t b q := by
  intro fuel
  induction fuel with
  | zero => intro pos p h; simp [findFromAux] at h
  | succ f ih =>
    intro pos p h
    simp only [findFromAux] at h
    by_cases hs : isSubAt t b pos
    · rw [if_pos hs] at h
      injection h with h
      subst h
      exact ⟨Nat.le_refl _, by omega, hs, fun q h1 h2 => absurd h1 (by omega)⟩
    · rw [if_neg hs] at h
      obtain ⟨h1, h2, h3, h4⟩ := ih (pos + 1) p h
      refine ⟨by omega, by omega, h3, ?_⟩
      intro q hq1 hq2
      rcases Nat.eq_or_lt_of_le hq1 with rfl | hlt
      · exact hs
      · exact h4 q hlt hq2

theorem findFromAux_none {t b : Str} : ∀ (fuel pos : Nat),
    findFromAux t b pos fuel = none →
    ∀ q, pos ≤ q → q < pos + fuel → ¬ isSubAt t b q := by
  intro fuel
  induction fuel with
  | zero => intro pos _ q h1 h2; omega
  | succ f ih =>
    intro pos h q h1 h2
    simp only [findFromAux] at h
    by_cases hs : isSubAt t b pos
    · rw [if_pos hs] at h; exact absurd h (by simp)
    · rw [if_neg hs] at h
      rcases Nat.eq_or_lt_of_le h1 with rfl | hlt
      · exact hs
      · exact ih (pos + 1) h q hlt (by omega)

theorem findFrom_some {t b : Str} {s p : Nat} (h : findFrom t b s = some p) :
    s ≤ p ∧ p ≤ t.length ∧ isSubAt t b p ∧
      ∀ q, s ≤ q → q < p → ¬ isSubAt t b q := by
  unfold findFrom at h
  by_cases hs : s ≤ t.length
  · rw [if_pos hs] at h
    obtain ⟨h1, h2, h3, h4⟩ := findFromAux_some _ _ _ h
    exact ⟨h1, by omega, h3, h4⟩
  · rw [if_neg hs] at h
    exact absurd h (by simp)

theorem findFrom_none {t b : Str} {s : Nat} (h : findFrom t b s = none) :
    ∀ q, s ≤ q → q ≤ t.length → ¬ isSubAt t b q := by
  unfold findFrom at h
  by_cases hs : s ≤ t.length
  · rw [if_pos hs] at h
    intro q h1 h2
    exact findFromAux_none _ _ h q h1 (by omega)
  · intro q h1 h2 _
    omega

theorem mem_buscarAux {t b : Str} : ∀ (fuel start p e : Nat),
    t.length + 1 ≤ start + fuel →
    ((p, e) ∈ buscarAux t b start fuel ↔
      (start ≤ p ∧ p ≤ t.length ∧ isSubAt t b p ∧ e = p + b.length)) := by
  intro fuel
  induction fuel with
  | zero =>
    intro start p e hf
    simp only [buscarAux, List.not_mem_nil, false_iff]
    rintro ⟨h1, h2, _, _⟩
    omega
  | succ f ih =>
    intro start p e hf
    simp only [buscarAux]
    cases hff : findFrom t b start with
    | none =>
      simp only [List.not_mem_nil, false_iff]
      rintro ⟨h1, h2, h3, _⟩
      exact findFrom_none hff p h1 h2 h3
    | some pos =>
      obtain ⟨h1, h2, h3, hmin⟩ := findFrom_some hff
      rw [List.mem_cons]
      constructor
      · rintro (heq | hmem)
        · injection heq with e1 e2
          subst e1; subst e2
          exact ⟨h1, h2, h3, rfl⟩
        · obtain ⟨g1, g2, g3, g4⟩ := (ih (pos + 1) p e (by omega)).mp hmem
          exact ⟨by omega, g2, g3, g4⟩
      · rintro ⟨g1, g2, g3, g4⟩
        by_cases hpp : p = pos
        · subst hpp; subst g4; left; rfl
        · right
          have hgt : pos < p := by
            rcases Nat.lt_or_ge p pos with hl | hg
            · exact absurd g3 (hmin p g1 hl)
            · omega
          exact (ih (pos + 1) p e (by omega)).mpr ⟨by omega, g2, g3, g4⟩

theorem mem_buscar_texto (texto buscar : Str) (p e : Nat) :
    (p, e) ∈ buscar_texto_en_original texto buscar ↔
      (p ≤ texto.length ∧ isSubAt (lowerL texto) (lowerL buscar) p ∧
        e = p + buscar.length) := by
  unfold buscar_texto_en_original
  have hlen : (lowerL texto).length = texto.length := List.length_map _ _
  have hlenb : (lowerL buscar).length = buscar.length := List.length_map _ _
  rw [mem_buscarAux (t := lowerL texto) (b := lowerL buscar) (texto.length + 1) 0 p e
      (by omega)]
  rw [hlen, hlenb]
  simp

/-! ## Claim theorems -/

/-- C9: the claim requires `ratio("","") = 100` (and `ratio(a,a) = 100` for
every `a`), but `fuzz_ratio_basic` returns `0.0` for two empty strings: the
`if not s1 or not s2: return 0.0` guard also fires when both are empty, so
the `if max_len == 0: return 100.0` branch below it — which shows the
intended value — is dead code.  The code contradicts its own intent here. -/
theorem c9_ratio_empty_empty : fuzz_ratio_basic [] [] = 0 ∧ (0 : ℚ) ≠ 100 := by
  constructor
  · with_unfolding_all rfl
  · norm_num

/-- C1 (counterexample): overlap resolution does not always produce a
pairwise-disjoint marker set.  On two same-style markers where the second is
shorter and starts inside the first, the inner loop neither skips nor
evicts (the `(end - start) > (r_end - r_start)` test fails and the loop just
continues), so both are accepted although they overlap — contradicting the
function's own docstring ("quedarse con el más específico"). -/
theorem c1_counterexample :
    resolver_solapamientos c1Marcas = c1Marcas ∧
    (⟨0, 10, "**", ['a']⟩ : Marca) ∈ resolver_solapamientos c1Marcas ∧
    (⟨2, 4, "**", ['b']⟩ : Marca) ∈ resolver_solapamientos c1Marcas ∧
    ¬ marcasDisjoint ⟨0, 10, "**", ['a']⟩ ⟨2, 4, "**", ['b']⟩ := by
  with_unfolding_all decide

/-- C10: `plate_similarity` is total and returns a value in `[0, 1]`
whenever at least one input is non-empty; on two empty inputs the divisor
`max(len(a), len(b))` is zero and the call is undefined (`ZeroDivisionError`,
modelled as `none`). -/
theorem c10_plate_similarity :
    (∀ a b : Str, a ≠ [] ∨ b ≠ [] →
      ∃ q : ℚ, plate_similarity a b = some q ∧ 0 ≤ q ∧ q ≤ 1) ∧
    plate_similarity [] [] = none := by
  constructor
  · intro a b hab
    have hmax : ¬ (Nat.max a.length b.length = 0) := by
      rw [Nat.max_eq_zero_iff]
      rintro ⟨h1, h2⟩
      rcases hab with h | h
      · exact h (List.length_eq_zero.mp h1)
      · exact h (List.length_eq_zero.mp h2)
    have hpos : 0 < Nat.max a.length b.length := Nat.pos_of_ne_zero hmax
    refine ⟨(countEq a b : ℚ) / ((Nat.max a.length b.length : Nat) : ℚ), ?_, ?_, ?_⟩
    · unfold plate_similarity
      rw [if_neg hmax]
    · apply div_nonneg
      · exact_mod_cast Nat.zero_le _
      · exact_mod_cast Nat.zero_le _
    · rw [div_le_one (by exact_mod_cast hpos)]
      have h1 : countEq a b ≤ a.length := countEq_le_left a b
      have h2 : a.length ≤ Nat.max a.length b.length := Nat.le_max_left _ _
      exact_mod_cast le_trans h1 h2
  · rfl

/-- C10 witness at a concrete non-empty input. -/
theorem c10_plate_similarity_witness :
    ∃ q : ℚ, plate_similarity ['a'] ['b'] = some q ∧ 0 ≤ q ∧ q ≤ 1 :=
  c10_plate_similarity.1 ['a'] ['b'] (Or.inl (by decide))

/-- C4: the three batch loops (vehicles, persons, locations) return exactly
one Match per input entity, in input order; an exception from a single
entity's resolution is caught and converted to an `ERROR` match that
carries the failure reason, and the rest of the batch is unaffected. -/
theorem c4_batch_isolation
    (sv : Vehiculo → Except Str (MatchResult Vehiculo VehRow))
    (sp : Persona → Except Str (MatchResult Persona PersonRow))
    (su : Ubicacion → Except Str (MatchResult Ubicacion LocRow))
    (vs : List Vehiculo) (ps : List Persona) (us : List Ubicacion) :
    (match_vehiculos sv vs).length = vs.length ∧
    (match_personas sp ps).length = ps.length ∧
    (match_ubicaciones su us).length = us.length ∧
    (∀ (i : Nat) (v : Vehiculo), vs[i]? = some v →
      (∀ m, sv v = Except.ok m → (match_vehiculos sv vs)[i]? = some m) ∧
      (∀ e, sv v = Except.error e →
        (match_vehiculos sv vs)[i]? = some (errorVehiculoMatch v e) ∧
        (errorVehiculoMatch v e).match_type = "ERROR" ∧
        (errorVehiculoMatch v e).enrichment.errorMsg = some e)) ∧
    (∀ (i : Nat) (p : Persona), ps[i]? = some p →
      (∀ m, sp p = Except.ok m → (match_personas sp ps)[i]? = some m) ∧
      (∀ e, sp p = Except.error e →
        (match_personas sp ps)[i]? = some (errorPersonaMatch p e) ∧
        (errorPersonaMatch p e).match_type = "ERROR" ∧
        (errorPersonaMatch p e).enrichment.errorMsg = some e)) ∧
    (∀ (i : Nat) (u : Ubicacion), us[i]? = some u →
      (∀ m, su u = Except.ok m → (match_ubicaciones su us)[i]? = some m) ∧
      (∀ e, su u = Except.error e →
        (match_ubicaciones su us)[i]? = some (errorUbicacionMatch u e) ∧
        (errorUbicacionMatch u e).match_type = "ERROR" ∧
        (errorUbicacionMatch u e).enrichment.errorMsg = some e)) := by
  refine ⟨List.length_map _ _, List.length_map _ _, List.length_map _ _, ?_, ?_, ?_⟩
  · intro i v hv
    constructor
    · intro m hm
      simp [match_vehiculos, List.getElem?_map, hv, hm]
    · intro e he
      refine ⟨?_, rfl, rfl⟩
      simp [match_vehiculos, List.getElem?_map, hv, he]
  · intro i p hp
    constructor
    · intro m hm
      simp [match_personas, List.getElem?_map, hp, hm]
    · intro e he
      refine ⟨?_, rfl, rfl⟩
      simp [match_personas, List.getElem?_map, hp, he]
  · intro i u hu
    constructor
    · intro m hm
      simp [match_ubicaciones, List.getElem?_map, hu, hm]
    · intro e he
      refine ⟨?_, rfl, rfl⟩
      simp [match_ubicaciones, List.getElem?_map, hu, he]

/-- C4 witness: a two-vehicle batch where the second entity's resolution
raises, an always-raising person batch, and a two-location batch where the
second entity's resolution raises. -/
theorem c4_batch_isolation_witness :
    (match_vehiculos c4Single [c4Veh1, c4Veh2]).length = 2 ∧
    (match_vehiculos c4Single [c4Veh1, c4Veh2])[0]? = some (noMatchVehiculo c4Veh1) ∧
    (match_vehiculos c4Single [c4Veh1, c4Veh2])[1]? = some (errorVehiculoMatch c4Veh2 ['d', 'b']) ∧
    (match_personas c4PSingle [c4Per])[0]? = some (errorPersonaMatch c4Per ['e']) ∧
    (match_ubicaciones c4USingle [c4Ubi1, c4Ubi2]).length = 2 ∧
    (match_ubicaciones c4USingle [c4Ubi1, c4Ubi2])[0]? = some (noMatchUbicacion c4Ubi1) ∧
    (match_ubicaciones c4USingle [c4Ubi1, c4Ubi2])[1]? =
      some (errorUbicacionMatch c4Ubi2 ['u', 'e']) := by
  have h := c4_batch_isolation c4Single c4PSingle c4USingle
    [c4Veh1, c4Veh2] [c4Per] [c4Ubi1, c4Ubi2]
  refine ⟨h.1, ?_, ?_, ?_, h.2.2.1, ?_, ?_⟩
  · exact (h.2.2.2.1 0 c4Veh1 (by with_unfolding_all decide)).1
      (noMatchVehiculo c4Veh1) (by with_unfolding_all rfl)
  · exact ((h.2.2.2.1 1 c4Veh2 (by with_unfolding_all decide)).2
      ['d', 'b'] (by with_unfolding_all rfl)).1
  · exact ((h.2.2.2.2.1 0 c4Per (by with_unfolding_all decide)).2
      ['e'] (by with_unfolding_all rfl)).1
  · exact (h.2.2.2.2.2 0 c4Ubi1 (by with_unfolding_all decide)).1
      (noMatchUbicacion c4Ubi1) (by with_unfolding_all rfl)
  · exact ((h.2.2.2.2.2 1 c4Ubi2 (by with_unfolding_all decide)).2
      ['u', 'e'] (by with_unfolding_all rfl)).1

/-- C8: an exact natural-key hit (normalised plate, DNI, or street-address
tuple) resolves to `EXACTO` with confidence exactly 1.0 and the matching
reference row as `db_record`. -/
theorem c8_exact_hits (unidec : Str → Str) (gw : Gateway) :
    (∀ (v : Vehiculo) (r : VehRow), trimL v.matricula ≠ [] →
      buscar_vehiculo_exacto gw (normalizar_matricula (trimL v.matricula)) = some r →
      (match_vehiculo_single unidec gw v).match_type = "EXACTO" ∧
      (match_vehiculo_single unidec gw v).confidence = 1 ∧
      (match_vehiculo_single unidec gw v).db_record = some r) ∧
    (∀ (p : Persona) (r : PersonRow), trimL p.dni ≠ [] →
      buscar_persona_by_dni gw (trimL p.dni) = some r →
      (match_persona_single unidec gw p).match_type = "EXACTO" ∧
      (match_persona_single unidec gw p).confidence = 1 ∧
      (match_persona_single unidec gw p).db_record = some r) ∧
    (∀ (u : Ubicacion) (r : LocRow), trimL u.nombre_via ≠ [] →
      buscar_ubicacion_exacta gw (trimL u.tipo_via) (trimL u.nombre_via) (trimL u.numero) = some r →
      (match_ubicacion_single unidec gw u).match_type = "EXACTO" ∧
      (match_ubicacion_single unidec gw u).confidence = 1 ∧
      (match_ubicacion_single unidec gw u).db_record = some r) := by
  refine ⟨?_, ?_, ?_⟩
  · intro v r hne hex
    have h : match_vehiculo_single unidec gw v = build_vehiculo_match gw v r "EXACTO" 1 := by
      simp only [match_vehiculo_single]
      rw [if_neg hne, hex]
    rw [h]
    exact ⟨rfl, rfl, rfl⟩
  · intro p r hne hex
    have h : match_persona_single unidec gw p = build_persona_match gw p r "EXACTO" 1 := by
      simp only [match_persona_single]
      rw [if_pos hne, hex]
    rw [h]
    exact ⟨rfl, rfl, rfl⟩
  · intro u r hne hex
    have h : match_ubicacion_single unidec gw u = build_ubicacion_match gw u r "EXACTO" 1 := by
      simp only [match_ubicacion_single]
      rw [if_neg hne, hex]
    rw [h]
    exact ⟨rfl, rfl, rfl⟩

/-- C8 witness: concrete exact hits for all three entity types (with
case/whitespace normalisation in play). -/
theorem c8_exact_hits_witness :
    ((match_vehiculo_single (fun s => s) c8Gw c8Veh).match_type = "EXACTO" ∧
     (match_vehiculo_single (fun s => s) c8Gw c8Veh).confidence = 1 ∧
     (match_vehiculo_single (fun s => s) c8Gw c8Veh).db_record = some c8VRow) ∧
    ((match_persona_single (fun s => s) c8Gw c8Per).match_type = "EXACTO" ∧
     (match_persona_single (fun s => s) c8Gw c8Per).confidence = 1 ∧
     (match_persona_single (fun s => s) c8Gw c8Per).db_record = some c8PRow) ∧
    ((match_ubicacion_single (fun s => s) c8Gw c8Ubi).match_type = "EXACTO" ∧
     (match_ubicacion_single (fun s => s) c8Gw c8Ubi).confidence = 1 ∧
     (match_ubicacion_single (fun s => s) c8Gw c8Ubi).db_record = some c8LRow) := by
  refine ⟨?_, ?_, ?_⟩
  · exact (c8_exact_hits (fun s => s) c8Gw).1 c8Veh c8VRow
      (by with_unfolding_all decide) (by with_unfolding_all decide)
  · exact (c8_exact_hits (fun s => s) c8Gw).2.1 c8Per c8PRow
      (by with_unfolding_all decide) (by with_unfolding_all decide)
  · exact (c8_exact_hits (fun s => s) c8Gw).2.2 c8Ubi c8LRow
      (by with_unfolding_all decide) (by with_unfolding_all decide)

/-- The source's per-row vehicle confidence equals the spec's weighted-sum
formula. -/
theorem vehConfidence_spec (unidec : Str → Str) (mn marca modelo : Str) (r : VehRow) :
    vehConfidence unidec mn marca modelo r = specVehConfidence unidec mn marca modelo r := by
  simp only [vehConfidence, specVehConfidence, fieldSim]
  ring

/-- The source's per-row person confidence equals the spec's weighted-sum
formula. -/
theorem personaConfidence_spec (unidec : Str → Str) (nombre apellidos : Str) (r : PersonRow) :
    personaConfidence unidec nombre apellidos r =
      specPersonaConfidence unidec nombre apellidos r := by
  simp only [personaConfidence, specPersonaConfidence, fieldSim]
  ring

/-- The source's stored (capped) location confidence equals the spec's
formula. -/
theorem ubicacionConfidence_spec (unidec : Str → Str) (nombre_via numero : Str) (r : LocRow) :
    min (ubicacionConfidence unidec nombre_via numero r) 1 =
      specUbicacionConfidence unidec nombre_via numero r := by
  simp only [ubicacionConfidence, specUbicacionConfidence]

/-- C3: every candidate surviving the fuzzy scans carries exactly the
spec's weighted confidence: vehicles 0.70·plate + 0.15·brand + 0.15·model,
persons 0.40·given-name + 0.60·family-name, locations street-name
similarity + 0.10 house-number bonus capped at 1.0. -/
theorem c3_weighted_confidence (unidec : Str → Str) (gw : Gateway)
    (matricula_norm marca modelo nombre apellidos tipo_via nombre_via numero : Str) :
    (∀ p ∈ buscar_vehiculo_fuzzy unidec gw matricula_norm marca modelo,
      p.2 = specVehConfidence unidec matricula_norm marca modelo p.1) ∧
    (∀ p ∈ buscar_persona_by_nombre unidec gw nombre apellidos,
      p.2 = specPersonaConfidence unidec nombre apellidos p.1) ∧
    (∀ p ∈ buscar_ubicacion_fuzzy unidec gw tipo_via nombre_via numero,
      p.2 = specUbicacionConfidence unidec nombre_via numero p.1) := by
  refine ⟨?_, ?_, ?_⟩
  · intro p hp
    simp only [buscar_vehiculo_fuzzy, vehFuzzyCandidates] at hp
    obtain ⟨r, _, hf⟩ := List.mem_filterMap.mp
      ((mem_sSort _ _ _).mp (List.mem_of_mem_take hp))
    by_cases hc : vehConfidence unidec matricula_norm marca modelo r ≥ 7/10
    · rw [if_pos hc] at hf
      obtain rfl := Option.some.inj hf
      exact (vehConfidence_spec unidec matricula_norm marca modelo r).symm ▸ rfl
    · rw [if_neg hc] at hf
      exact absurd hf (by simp)
  · intro p hp
    simp only [buscar_persona_by_nombre] at hp
    obtain ⟨r, _, hf⟩ := List.mem_filterMap.mp
      ((mem_sSort _ _ _).mp (List.mem_of_mem_take hp))
    by_cases hc : personaConfidence unidec nombre apellidos r ≥ 7/10
    · rw [if_pos hc] at hf
      obtain rfl := Option.some.inj hf
      exact (personaConfidence_spec unidec nombre apellidos r).symm ▸ rfl
    · rw [if_neg hc] at hf
      exact absurd hf (by simp)
  · intro p hp
    simp only [buscar_ubicacion_fuzzy] at hp
    obtain ⟨r, _, hf⟩ := List.mem_filterMap.mp
      ((mem_sSort _ _ _).mp (List.mem_of_mem_take hp))
    by_cases hc : ubicacionConfidence unidec nombre_via numero r ≥ 7/10
    · rw [if_pos hc] at hf
      obtain rfl := Option.some.inj hf
      exact (ubicacionConfidence_spec unidec nombre_via numero r).symm ▸ rfl
    · rw [if_neg hc] at hf
      exact absurd hf (by simp)

/-- C3 witness: concrete surviving candidates of all three scans carry the
spec formula's value (the location one exercises the bonus and the cap). -/
theorem c3_weighted_confidence_witness :
    ((7/10 : ℚ) = specVehConfidence (fun s => s) ['A'] [] [] c3VRow) ∧
    ((1 : ℚ) = specPersonaConfidence (fun s => s) ['J'] ['M'] c3PRow) ∧
    ((1 : ℚ) = specUbicacionConfidence (fun s => s) ['R'] ['7'] c3LRow) := by
  have h := c3_weighted_confidence (fun s => s) c3Gw ['A'] [] [] ['J'] ['M'] [] ['R'] ['7']
  exact ⟨h.1 (c3VRow, 7/10) (by with_unfolding_all decide),
         h.2.1 (c3PRow, 1) (by with_unfolding_all decide),
         h.2.2 (c3LRow, 1) (by with_unfolding_all decide)⟩

/-- C7: the fuzzy vehicle scan discards every candidate below the 0.70
floor (and keeps each row at or above it), keeps at most the top 3 in
descending confidence with ties in original gateway row order (the stable
sort preserves the relative order of equal confidences), and the entity
resolves to `PARCIAL` with the best survivor iff its confidence ≥ 0.85,
otherwise `SIN_COINCIDENCIA`. -/
theorem c7_fuzzy_shortlist (unidec : Str → Str) (gw : Gateway)
    (matricula_norm marca modelo : Str) :
    (∀ p ∈ buscar_vehiculo_fuzzy unidec gw matricula_norm marca modelo, (7 : ℚ)/10 ≤ p.2) ∧
    (buscar_vehiculo_fuzzy unidec gw matricula_norm marca modelo).length ≤ 3 ∧
    (buscar_vehiculo_fuzzy unidec gw matricula_norm marca modelo).Pairwise
      (fun a b => b.2 ≤ a.2) ∧
    (∀ r ∈ gw.vehicles, 7/10 ≤ vehConfidence unidec matricula_norm marca modelo r →
      (r, vehConfidence unidec matricula_norm marca modelo r) ∈
        sSort befConfDesc (vehFuzzyCandidates unidec gw matricula_norm marca modelo)) ∧
    (∀ c : ℚ,
      (sSort befConfDesc (vehFuzzyCandidates unidec gw matricula_norm marca modelo)).filter
          (fun p => p.2 = c) =
        (vehFuzzyCandidates unidec gw matricula_norm marca modelo).filter
          (fun p => p.2 = c)) ∧
    (buscar_vehiculo_fuzzy unidec gw matricula_norm marca modelo =
      (sSort befConfDesc (vehFuzzyCandidates unidec gw matricula_norm marca modelo)).take 3) ∧
    (∀ v : Vehiculo, trimL v.matricula ≠ [] →
      normalizar_matricula (trimL v.matricula) = matricula_norm →
      trimL v.marca = marca → trimL v.modelo = modelo →
      buscar_vehiculo_exacto gw matricula_norm = none →
      match buscar_vehiculo_fuzzy unidec gw matricula_norm marca modelo with
      | (best, c) :: _ =>
          (17/20 ≤ c → match_vehiculo_single unidec gw v =
            build_vehiculo_match gw v best "PARCIAL" c) ∧
          (¬ 17/20 ≤ c →
            match_vehiculo_single unidec gw v = noMatchVehiculo v ∧
            (match_vehiculo_single unidec gw v).match_type = "SIN_COINCIDENCIA")
      | [] =>
          match_vehiculo_single unidec gw v = noMatchVehiculo v ∧
          (match_vehiculo_single unidec gw v).match_type = "SIN_COINCIDENCIA") := by
  have hmemcand : ∀ p ∈ vehFuzzyCandidates unidec gw matricula_norm marca modelo,
      (7 : ℚ)/10 ≤ p.2 := by
    intro p hp
    obtain ⟨r, _, hf⟩ := List.mem_filterMap.mp hp
    by_cases hc : vehConfidence unidec matricula_norm marca modelo r ≥ 7/10
    · rw [if_pos hc] at hf
      obtain rfl := Option.some.inj hf
      exact hc
    · rw [if_neg hc] at hf
      exact absurd hf (by simp)
  refine ⟨?_, ?_, ?_, ?_, ?_, rfl, ?_⟩
  · intro p hp
    exact hmemcand p ((mem_sSort _ _ _).mp (List.mem_of_mem_take hp))
  · simp only [buscar_vehiculo_fuzzy, List.length_take]
    exact Nat.min_le_left _ _
  · have hs : (sSort befConfDesc
        (vehFuzzyCandidates unidec gw matricula_norm marca modelo)).Pairwise
        (fun a b => b.2 ≤ a.2) := by
      apply pairwise_sSort
      · intro a b h
        simpa [befConfDesc] using h
      · intro a b h
        have : ¬ (b.2 ≤ a.2) := by simpa [befConfDesc] using h
        exact le_of_not_le this
      · intro a b c hab hbc
        exact le_trans hbc hab
    exact List.Pairwise.sublist (List.take_sublist _ _) hs
  · intro r hr hc
    apply (mem_sSort _ _ _).mpr
    apply List.mem_filterMap.mpr
    refine ⟨r, hr, ?_⟩
    simp only
    rw [if_pos hc]
  · intro c
    exact filter_sSort_conf _ c
  · intro v hv1 hmn hmar hmod hexact
    cases hf : buscar_vehiculo_fuzzy unidec gw matricula_norm marca modelo with
    | nil =>
      have h : match_vehiculo_single unidec gw v = noMatchVehiculo v := by
        simp only [match_vehiculo_single]
        rw [if_neg hv1, hmn, hmar, hmod, hexact, hf]
      exact ⟨h, by rw [h]; rfl⟩
    | cons hd tl =>
      obtain ⟨best, c⟩ := hd
      constructor
      · intro hge
        simp only [match_vehiculo_single]
        rw [if_neg hv1, hmn, hmar, hmod, hexact, hf]
        simp only
        rw [if_pos hge]
      · intro hlt
        have h : match_vehiculo_single unidec gw v = noMatchVehiculo v := by
          simp only [match_vehiculo_single]
          rw [if_neg hv1, hmn, hmar, hmod, hexact, hf]
          simp only
          rw [if_neg hlt]
        exact ⟨h, by rw [h]; rfl⟩

/-- C7 witness: a one-row gateway where the exact lookup misses, the fuzzy
candidate passes the floor with confidence exactly 0.85, and the entity
resolves to `PARCIAL`. -/
theorem c7_fuzzy_shortlist_witness :
    ((7 : ℚ)/10 ≤ 17/20) ∧
    (buscar_vehiculo_fuzzy (fun s => s) c7Gw ['A', 'B'] ['G'] []).length ≤ 3 ∧
    match_vehiculo_single (fun s => s) c7Gw c7Veh =
      build_vehiculo_match c7Gw c7Veh c7Row "PARCIAL" (17/20) := by
  have h := c7_fuzzy_shortlist (fun s => s) c7Gw ['A', 'B'] ['G'] []
  refine ⟨?_, h.2.1, ?_⟩
  · exact h.1 (c7Row, 17/20) (by with_unfolding_all decide)
  · have h7 := h.2.2.2.2.2.2 c7Veh (by with_unfolding_all decide)
      (by with_unfolding_all decide) (by with_unfolding_all decide)
      (by with_unfolding_all decide) (by with_unfolding_all decide)
    rw [show buscar_vehiculo_fuzzy (fun s => s) c7Gw ['A', 'B'] ['G'] [] =
        [(c7Row, 17/20)] from by with_unfolding_all decide] at h7
    exact h7.1 (by with_unfolding_all decide)

/-- Soundness of one field's marker list. -/
theorem mem_marcasDeCampo {texto buscar : Str} {tipo : String} {c : Marca}
    (h : c ∈ marcasDeCampo texto buscar tipo) :
    c.tipo = tipo ∧ c.texto = buscar ∧
      (c.start, c.stop) ∈ buscar_texto_en_original texto buscar := by
  obtain ⟨p, hp, rfl⟩ := List.mem_map.mp h
  exact ⟨rfl, rfl, by simpa using hp⟩

/-- Completeness of one field's marker list. -/
theorem marcasDeCampo_mem {texto buscar : Str} {tipo : String} {p : Nat × Nat}
    (hp : p ∈ buscar_texto_en_original texto buscar) :
    (⟨p.1, p.2, tipo, buscar⟩ : Marca) ∈ marcasDeCampo texto buscar tipo :=
  List.mem_map.mpr ⟨p, hp, rfl⟩

/-- C2 (counterexample): as stated the claim is false.  It requires person
name fields to produce markers only at confidence ≥ 0.95, but the person
loop of `_construir_marcas` has no such threshold: an accepted `PARCIAL`
person match with confidence 0.85 < 0.95 produces a (Weak) marker for its
given name. -/
theorem c2_counterexample :
    construir_marcas c2Texto c2Matches = [⟨0, 2, "**", ['J', 'O']⟩] ∧
    (17/20 : ℚ) < THRESHOLD_EXACTO ∧
    c2Matches.personas = [⟨⟨[], ['J', 'O'], []⟩, "PARCIAL", 17/20⟩] := by
  refine ⟨by with_unfolding_all decide, by with_unfolding_all decide, rfl⟩

/-- C2 (amended): for every accepted match (`EXACTO`/`PARCIAL` with
confidence ≥ 0.70), every natural-key facet — plate, DNI, location text —
and additionally *both person name fields at any accepted confidence* —
produce candidate markers at every case-insensitive occurrence in the text,
with style `@` (Strong) iff confidence ≥ 0.95; brand and model produce
markers only at confidence ≥ 0.95 (and then Strong); and the occurrence
scan finds exactly the case-insensitive substring occurrences. -/
theorem c2_marker_construction (texto : Str) :
    (∀ (m : AnnMatch AnnVehiculo) (c : Marca), c ∈ vehiculoMarcas texto m →
      annAccepted m ∧ c.tipo = tipoMarca m ∧
      (c.texto = m.entidad_original.matricula ∨
        (m.confidence ≥ THRESHOLD_EXACTO ∧
          (c.texto = m.entidad_original.marca ∨ c.texto = m.entidad_original.modelo))) ∧
      (c.start, c.stop) ∈ buscar_texto_en_original texto c.texto) ∧
    (∀ m : AnnMatch AnnVehiculo, annAccepted m → m.entidad_original.matricula ≠ [] →
      ∀ p ∈ buscar_texto_en_original texto m.entidad_original.matricula,
        (⟨p.1, p.2, tipoMarca m, m.entidad_original.matricula⟩ : Marca) ∈
          vehiculoMarcas texto m) ∧
    (∀ (m : AnnMatch AnnPersona) (c : Marca), c ∈ personaMarcas texto m →
      annAccepted m ∧ c.tipo = tipoMarca m ∧
      (c.texto = m.entidad_original.dni ∨ c.texto = m.entidad_original.nombre ∨
        c.texto = m.entidad_original.apellidos) ∧
      (c.start, c.stop) ∈ buscar_texto_en_original texto c.texto) ∧
    (∀ m : AnnMatch AnnPersona, annAccepted m →
      (m.entidad_original.dni ≠ [] →
        ∀ p ∈ buscar_texto_en_original texto m.entidad_original.dni,
          (⟨p.1, p.2, tipoMarca m, m.entidad_original.dni⟩ : Marca) ∈
            personaMarcas texto m) ∧
      (m.entidad_original.nombre ≠ [] →
        ∀ p ∈ buscar_texto_en_original texto m.entidad_original.nombre,
          (⟨p.1, p.2, tipoMarca m, m.entidad_original.nombre⟩ : Marca) ∈
            personaMarcas texto m) ∧
      (m.entidad_original.apellidos ≠ [] →
        ∀ p ∈ buscar_texto_en_original texto m.entidad_original.apellidos,
          (⟨p.1, p.2, tipoMarca m, m.entidad_original.apellidos⟩ : Marca) ∈
            personaMarcas texto m)) ∧
    (∀ (m : AnnMatch AnnUbicacion) (c : Marca), c ∈ ubicacionMarcas texto m →
      annAccepted m ∧ c.tipo = tipoMarca m ∧
      ((m.entidad_original.texto_completo ≠ [] ∧
          c.texto = m.entidad_original.texto_completo) ∨
        (m.entidad_original.texto_completo = [] ∧
          c.texto = m.entidad_original.nombre_via)) ∧
      (c.start, c.stop) ∈ buscar_texto_en_original texto c.texto) ∧
    (∀ m : AnnMatch AnnUbicacion, annAccepted m →
      (m.entidad_original.texto_completo ≠ [] →
        ∀ p ∈ buscar_texto_en_original texto m.entidad_original.texto_completo,
          (⟨p.1, p.2, tipoMarca m, m.entidad_original.texto_completo⟩ : Marca) ∈
            ubicacionMarcas texto m) ∧
      (m.entidad_original.texto_completo = [] → m.entidad_original.nombre_via ≠ [] →
        ∀ p ∈ buscar_texto_en_original texto m.entidad_original.nombre_via,
          (⟨p.1, p.2, tipoMarca m, m.entidad_original.nombre_via⟩ : Marca) ∈
            ubicacionMarcas texto m)) ∧
    (∀ (buscar : Str) (p e : Nat),
      (p, e) ∈ buscar_texto_en_original texto buscar ↔
        (p ≤ texto.length ∧ isSubAt (lowerL texto) (lowerL buscar) p ∧
          e = p + buscar.length)) := by
  refine ⟨?_, ?_, ?_, ?_, ?_, ?_, fun buscar p e => mem_buscar_texto texto buscar p e⟩
  · intro m c hc
    unfold vehiculoMarcas at hc
    by_cases ha : annAccepted m
    · rw [if_pos ha] at hc
      refine ⟨ha, ?_⟩
      rcases List.mem_append.mp hc with hc' | hc3
      · rcases List.mem_append.mp hc' with hc1 | hc2
        · by_cases h1 : m.entidad_original.matricula ≠ []
          · rw [if_pos h1] at hc1
            obtain ⟨ht, hx, ho⟩ := mem_marcasDeCampo hc1
            exact ⟨ht, Or.inl hx, hx ▸ ho⟩
          · rw [if_neg h1] at hc1
            exact absurd hc1 (List.not_mem_nil c)
        · by_cases h2 : m.entidad_original.marca ≠ [] ∧ m.confidence ≥ THRESHOLD_EXACTO
          · rw [if_pos h2] at hc2
            obtain ⟨ht, hx, ho⟩ := mem_marcasDeCampo hc2
            have htm : tipoMarca m = "@" := by
              unfold tipoMarca
              rw [if_pos h2.2]
            exact ⟨ht.trans htm.symm, Or.inr ⟨h2.2, Or.inl hx⟩, hx ▸ ho⟩
          · rw [if_neg h2] at hc2
            exact absurd hc2 (List.not_mem_nil c)
      · by_cases h3 : m.entidad_original.modelo ≠ [] ∧ m.confidence ≥ THRESHOLD_EXACTO
        · rw [if_pos h3] at hc3
          obtain ⟨ht, hx, ho⟩ := mem_marcasDeCampo hc3
          have htm : tipoMarca m = "@" := by
            unfold tipoMarca
            rw [if_pos h3.2]
          exact ⟨ht.trans htm.symm, Or.inr ⟨h3.2, Or.inr hx⟩, hx ▸ ho⟩
        · rw [if_neg h3] at hc3
          exact absurd hc3 (List.not_mem_nil c)
    · rw [if_neg ha] at hc
      exact absurd hc (List.not_mem_nil c)
  · intro m ha hmat p hp
    unfold vehiculoMarcas
    rw [if_pos ha]
    apply List.mem_append.mpr
    left
    apply List.mem_append.mpr
    left
    rw [if_pos hmat]
    exact marcasDeCampo_mem hp
  · intro m c hc
    unfold personaMarcas at hc
    by_cases ha : annAccepted m
    · rw [if_pos ha] at hc
      refine ⟨ha, ?_⟩
      rcases List.mem_append.mp hc with hc' | hc3
      · rcases List.mem_append.mp hc' with hc1 | hc2
        · by_cases h1 : m.entidad_original.dni ≠ []
          · rw [if_pos h1] at hc1
            obtain ⟨ht, hx, ho⟩ := mem_marcasDeCampo hc1
            exact ⟨ht, Or.inl hx, hx ▸ ho⟩
          · rw [if_neg h1] at hc1
            exact absurd hc1 (List.not_mem_nil c)
        · by_cases h2 : m.entidad_original.nombre ≠ []
          · rw [if_pos h2] at hc2
            obtain ⟨ht, hx, ho⟩ := mem_marcasDeCampo hc2
            exact ⟨ht, Or.inr (Or.inl hx), hx ▸ ho⟩
          · rw [if_neg h2] at hc2
            exact absurd hc2 (List.not_mem_nil c)
      · by_cases h3 : m.entidad_original.apellidos ≠ []
        · rw [if_pos h3] at hc3
          obtain ⟨ht, hx, ho⟩ := mem_marcasDeCampo hc3
          exact ⟨ht, Or.inr (Or.inr hx), hx ▸ ho⟩
        · rw [if_neg h3] at hc3
          exact absurd hc3 (List.not_mem_nil c)
    · rw [if_neg ha] at hc
      exact absurd hc (List.not_mem_nil c)
  · intro m ha
    refine ⟨?_, ?_, ?_⟩
    · intro h1 p hp
      unfold personaMarcas
      rw [if_pos ha]
      apply List.mem_append.mpr
      left
      apply List.mem_append.mpr
      left
      rw [if_pos h1]
      exact marcasDeCampo_mem hp
    · intro h2 p hp
      unfold personaMarcas
      rw [if_pos ha]
      apply List.mem_append.mpr
      left
      apply List.mem_append.mpr
      right
      rw [if_pos h2]
      exact marcasDeCampo_mem hp
    · intro h3 p hp
      unfold personaMarcas
      rw [if_pos ha]
      apply List.mem_append.mpr
      right
      rw [if_pos h3]
      exact marcasDeCampo_mem hp
  · intro m c hc
    unfold ubicacionMarcas at hc
    by_cases ha : annAccepted m
    · rw [if_pos ha] at hc
      refine ⟨ha, ?_⟩
      by_cases h1 : m.entidad_original.texto_completo ≠ []
      · rw [if_pos h1] at hc
        obtain ⟨ht, hx, ho⟩ := mem_marcasDeCampo hc
        exact ⟨ht, Or.inl ⟨h1, hx⟩, hx ▸ ho⟩
      · rw [if_neg h1] at hc
        by_cases h2 : m.entidad_original.nombre_via ≠ []
        · rw [if_pos h2] at hc
          obtain ⟨ht, hx, ho⟩ := mem_marcasDeCampo hc
          exact ⟨ht, Or.inr ⟨not_not.mp h1, hx⟩, hx ▸ ho⟩
        · rw [if_neg h2] at hc
          exact absurd hc (List.not_mem_nil c)
    · rw [if_neg ha] at hc
      exact absurd hc (List.not_mem_nil c)
  · intro m ha
    constructor
    · intro h1 p hp
      unfold ubicacionMarcas
      rw [if_pos ha, if_pos h1]
      exact marcasDeCampo_mem hp
    · intro h1 h2 p hp
      unfold ubicacionMarcas
      rw [if_pos ha, if_neg (not_not_intro h1), if_pos h2]
      exact marcasDeCampo_mem hp

/-- C2 witness: concrete instances of the amended construction facts — the
0.85-confidence person match gets a Weak marker for its name at its
occurrence, the vehicle plate is marked, the brand (confidence < 0.95) is
not, and the occurrence characterisation holds at the sample text. -/
theorem c2_marker_construction_witness :
    ((⟨0, 2, tipoMarca c2PerMatch, ['J', 'O']⟩ : Marca) ∈
        personaMarcas c2Texto c2PerMatch) ∧
    tipoMarca c2PerMatch = "**" ∧
    ((⟨0, 2, tipoMarca c2VehMatch, ['j', 'o']⟩ : Marca) ∈
        vehiculoMarcas c2Texto c2VehMatch) ∧
    ((⟨0, 2, tipoMarca c2UbiMatch, ['j', 'o']⟩ : Marca) ∈
        ubicacionMarcas c2Texto c2UbiMatch) ∧
    ((⟨1, 2, tipoMarca c2UbiMatch2, ['o']⟩ : Marca) ∈
        ubicacionMarcas c2Texto c2UbiMatch2) ∧
    tipoMarca c2UbiMatch2 = "@" ∧
    (annAccepted c2PerMatch ∧
      (⟨0, 2, "**", ['J', 'O']⟩ : Marca).tipo = tipoMarca c2PerMatch ∧
      ((⟨0, 2, "**", ['J', 'O']⟩ : Marca).texto = c2PerMatch.entidad_original.dni ∨
        (⟨0, 2, "**", ['J', 'O']⟩ : Marca).texto = c2PerMatch.entidad_original.nombre ∨
        (⟨0, 2, "**", ['J', 'O']⟩ : Marca).texto = c2PerMatch.entidad_original.apellidos) ∧
      ((0, 2) ∈ buscar_texto_en_original c2Texto ['J', 'O'])) ∧
    ((1, 2) ∈ buscar_texto_en_original c2Texto ['O'] ↔
      (1 ≤ c2Texto.length ∧ isSubAt (lowerL c2Texto) (lowerL ['O']) 1 ∧
        2 = 1 + (['O'] : Str).length)) := by
  have h := c2_marker_construction c2Texto
  refine ⟨?_, by with_unfolding_all decide, ?_, ?_, ?_,
    by with_unfolding_all decide, ?_, h.2.2.2.2.2.2 ['O'] 1 2⟩
  · exact (h.2.2.2.1 c2PerMatch (by with_unfolding_all decide)).2.1
      (by with_unfolding_all decide) (0, 2) (by with_unfolding_all decide)
  · exact h.2.1 c2VehMatch (by with_unfolding_all decide)
      (by with_unfolding_all decide) (0, 2) (by with_unfolding_all decide)
  · exact (h.2.2.2.2.2.1 c2UbiMatch (by with_unfolding_all decide)).1
      (by with_unfolding_all decide) (0, 2) (by with_unfolding_all decide)
  · exact (h.2.2.2.2.2.1 c2UbiMatch2 (by with_unfolding_all decide)).2
      (by with_unfolding_all decide) (by with_unfolding_all decide)
      (1, 2) (by with_unfolding_all decide)
  · exact h.2.2.1 c2PerMatch ⟨0, 2, "**", ['J', 'O']⟩ (by with_unfolding_all decide)

/-! ## Helper lemmas for the text rewrite (C6) -/

theorem length_wrapMarca (tipo : String) (s : Str) (m : Marca) (h : m.tipo = tipo) :
    (wrapMarca tipo s).length = s.length + overhead m := by
  unfold wrapMarca overhead
  rw [h]
  by_cases ht : tipo = "@" <;> simp [ht]

theorem length_spliceMarca (texto : Str) (m : Marca) (res : Str)
    (h1 : m.start ≤ m.stop) (h2 : m.stop ≤ texto.length) (h3 : texto.length ≤ res.length) :
    (spliceMarca texto m res).length = res.length + overhead m := by
  unfold spliceMarca
  rw [List.length_append, List.length_append,
    length_wrapMarca m.tipo _ m rfl]
  simp only [List.length_take, List.length_drop]
  omega

theorem length_foldr_splice (texto : Str) : ∀ marcas : List Marca,
    (∀ m ∈ marcas, m.start ≤ m.stop ∧ m.stop ≤ texto.length) →
    (marcas.foldr (spliceMarca texto) texto).length =
      texto.length + (marcas.map overhead).sum := by
  intro marcas
  induction marcas with
  | nil => intro _; simp
  | cons m ms ih =>
    intro hb
    have hmsb : ∀ m' ∈ ms, m'.start ≤ m'.stop ∧ m'.stop ≤ texto.length :=
      fun m' hm' => hb m' (List.mem_cons_of_mem m hm')
    have hm := hb m (List.mem_cons_self m ms)
    simp only [List.foldr_cons, List.map_cons, List.sum_cons]
    rw [length_spliceMarca texto m _ hm.1 hm.2 (by rw [ih hmsb]; omega), ih hmsb]
    omega

theorem slice_split (l : Str) (a b c : Nat) (hab : a ≤ b) (hbc : b ≤ c) :
    (l.drop a).take (c - a) = (l.drop a).take (b - a) ++ (l.drop b).take (c - b) := by
  have h : c - a = (b - a) + (c - b) := by omega
  have hd : (l.drop a).drop (b - a) = l.drop b := by
    rw [List.drop_drop]
    congr 1
    omega
  rw [h, List.take_add, hd]

theorem chainedFrom_mono (len : Nat) : ∀ (ms : List Marca) (pos pos' : Nat),
    pos' ≤ pos → chainedFrom pos len ms → chainedFrom pos' len ms := by
  intro ms pos pos' hle h
  cases ms with
  | nil => trivial
  | cons m ms' =>
    obtain ⟨h1, h2, h3, h4⟩ := h
    exact ⟨le_trans hle h1, h2, h3, h4⟩

theorem renderSplit (texto : Str) : ∀ (ms : List Marca) (pos e : Nat),
    pos ≤ e → chainedFrom e texto.length ms →
    renderMarcas texto pos ms = (texto.drop pos).take (e - pos) ++ renderMarcas texto e ms := by
  intro ms pos e hpe hch
  cases ms with
  | nil =>
    simp only [renderMarcas]
    have h := List.take_append_drop (e - pos) (texto.drop pos)
    rw [List.drop_drop] at h
    have h2 : pos + (e - pos) = e := by omega
    rw [h2] at h
    exact h.symm
  | cons m ms' =>
    obtain ⟨h1, h2, h3, h4⟩ := hch
    simp only [renderMarcas]
    rw [slice_split texto pos e m.start hpe h1]
    simp [List.append_assoc]

theorem foldr_splice_eq_render (texto : Str) : ∀ marcas : List Marca,
    chainedFrom 0 texto.length marcas →
    marcas.foldr (spliceMarca texto) texto = renderMarcas texto 0 marcas := by
  intro marcas
  induction marcas with
  | nil => intro _; simp [renderMarcas]
  | cons m ms ih =>
    intro hch
    obtain ⟨_, h2, h3, h4⟩ := hch
    have hch0 : chainedFrom 0 texto.length ms := chainedFrom_mono _ ms m.stop 0 (Nat.zero_le _) h4
    simp only [List.foldr_cons, ih hch0]
    have hrw : renderMarcas texto 0 ms = texto.take m.stop ++ renderMarcas texto m.stop ms := by
      rw [renderSplit texto ms 0 m.stop (Nat.zero_le _) h4]
      simp
    rw [hrw]
    unfold spliceMarca
    have hlt : (texto.take m.stop).length = m.stop := by
      rw [List.length_take]
      omega
    rw [List.take_append_of_le_length (by omega : m.start ≤ (texto.take m.stop).length),
      List.take_take]
    have hde : (texto.take m.stop ++ renderMarcas texto m.stop ms).drop m.stop =
        renderMarcas texto m.stop ms := by
      have hdl := List.drop_left (texto.take m.stop) (renderMarcas texto m.stop ms)
      rwa [hlt] at hdl
    rw [hde]
    simp only [renderMarcas]
    rw [min_eq_left h2]
    simp

theorem shiftAt_eq_zero (len : Nat) : ∀ (ms : List Marca) (pos i : Nat),
    chainedFrom pos len ms → i < pos → shiftAt ms i = 0 := by
  intro ms
  induction ms with
  | nil => intro pos i _ _; rfl
  | cons m ms' ih =>
    intro pos i hch hi
    obtain ⟨h1, h2, _, h4⟩ := hch
    unfold shiftAt
    have hns : ¬ (m.stop ≤ i) := by omega
    simp only [List.filter_cons, hns, decide_eq_true_eq, if_false]
    exact ih m.stop i h4 (by omega)

theorem render_get (texto : Str) : ∀ (ms : List Marca) (pos i : Nat),
    chainedFrom pos texto.length ms → pos ≤ i → i < texto.length →
    (∀ m ∈ ms, i < m.start ∨ m.stop ≤ i) →
    (renderMarcas texto pos ms)[i - pos + shiftAt ms i]? = texto[i]? := by
  intro ms
  induction ms with
  | nil =>
    intro pos i _ hpi hlen _
    simp only [renderMarcas, shiftAt, List.filter_nil, List.map_nil, List.sum_nil,
      Nat.add_zero]
    rw [List.getElem?_drop]
    congr 1
    omega
  | cons m ms' ih =>
    intro pos i hch hpi hlen houts
    obtain ⟨h1, h2, h3, h4⟩ := hch
    have hout := houts m (List.mem_cons_self m ms')
    have houts' : ∀ m' ∈ ms', i < m'.start ∨ m'.stop ≤ i :=
      fun m' hm' => houts m' (List.mem_cons_of_mem m hm')
    simp only [renderMarcas]
    have hlenA : ((texto.drop pos).take (m.start - pos)).length = m.start - pos := by
      rw [List.length_take, List.length_drop]
      omega
    have hlenB : (wrapMarca m.tipo ((texto.drop m.start).take (m.stop - m.start))).length =
        (m.stop - m.start) + overhead m := by
      rw [length_wrapMarca m.tipo _ m rfl, List.length_take, List.length_drop]
      omega
    rcases hout with hcase | hcase
    · -- i strictly before this marker (and hence before all later ones)
      have hsh : shiftAt (m :: ms') i = 0 := by
        unfold shiftAt
        have hns : ¬ (m.stop ≤ i) := by omega
        simp only [List.filter_cons, hns, decide_eq_true_eq, if_false]
        have hz := shiftAt_eq_zero texto.length ms' m.stop i h4 (by omega)
        unfold shiftAt at hz
        exact hz
      rw [hsh, Nat.add_zero]
      have hidx2 : i - pos < (List.take (m.start - pos) (List.drop pos texto) ++
          wrapMarca m.tipo ((texto.drop m.start).take (m.stop - m.start))).length := by
        rw [List.length_append, hlenA]
        omega
      rw [List.getElem?_append_left hidx2]
      have hidx : i - pos < ((texto.drop pos).take (m.start - pos)).length := by
        rw [hlenA]
        omega
      rw [List.getElem?_append_left hidx]
      rw [List.getElem?_take_of_lt (by omega : i - pos < m.start - pos)]
      rw [List.getElem?_drop]
      congr 1
      omega
    · -- i at or after this marker's stop
      have hsh : shiftAt (m :: ms') i = overhead m + shiftAt ms' i := by
        unfold shiftAt
        simp only [List.filter_cons, hcase, decide_eq_true_eq, if_true]
        rw [List.map_cons, List.sum_cons]
      rw [hsh]
      have hj1 : (List.take (m.start - pos) (List.drop pos texto) ++
          wrapMarca m.tipo ((texto.drop m.start).take (m.stop - m.start))).length ≤
          i - pos + (overhead m + shiftAt ms' i) := by
        rw [List.length_append, hlenA, hlenB]
        omega
      rw [List.getElem?_append_right hj1]
      have hidx : i - pos + (overhead m + shiftAt ms' i) -
          (List.take (m.start - pos) (List.drop pos texto) ++
            wrapMarca m.tipo ((texto.drop m.start).take (m.stop - m.start))).length =
          i - m.stop + shiftAt ms' i := by
        rw [List.length_append, hlenA, hlenB]
        omega
      rw [hidx]
      exact ih m.stop i h4 hcase hlen houts'

theorem chained_of_sorted_disjoint (len : Nat) : ∀ (marcas : List Marca) (pos : Nat),
    (∀ m ∈ marcas, m.start < m.stop ∧ m.stop ≤ len) →
    marcas.Pairwise (fun a b => a.start ≤ b.start) →
    marcas.Pairwise marcasDisjoint →
    (∀ m ∈ marcas, pos ≤ m.start) →
    chainedFrom pos len marcas := by
  intro marcas
  induction marcas with
  | nil => intro pos _ _ _ _; trivial
  | cons m ms ih =>
    intro pos hb hsort hdisj hpos
    have hm := hb m (List.mem_cons_self m ms)
    refine ⟨hpos m (List.mem_cons_self m ms), Nat.le_of_lt hm.1, hm.2, ?_⟩
    rw [List.pairwise_cons] at hsort hdisj
    apply ih m.stop (fun m' hm' => hb m' (List.mem_cons_of_mem m hm'))
      hsort.2 hdisj.2
    intro m' hm'
    rcases hdisj.1 m' hm' with h | h
    · exact h
    · have hb' := hb m' (List.mem_cons_of_mem m hm')
      have hs' := hsort.1 m' hm'
      omega

/-- C6: applying a pairwise-disjoint, position-sorted list of in-bounds
markers (right to left, `@span` for Strong and `**span**` for Weak) yields
a text whose length is the input length plus 1 per Strong and 4 per Weak
marker, which equals the reference left-to-right rendering, and in which
every character outside the marked spans reappears unchanged, shifted right
by the overhead of the markers that end at or before it. -/
theorem c6_rewrite (texto : Str) (marcas : List Marca)
    (hb : ∀ m ∈ marcas, m.start < m.stop ∧ m.stop ≤ texto.length)
    (hsort : marcas.Pairwise (fun a b => a.start ≤ b.start))
    (hdisj : marcas.Pairwise marcasDisjoint) :
    (aplicar_marcas texto marcas).length = texto.length + (marcas.map overhead).sum ∧
    aplicar_marcas texto marcas = renderMarcas texto 0 marcas ∧
    (∀ i : Nat, i < texto.length → (∀ m ∈ marcas, i < m.start ∨ m.stop ≤ i) →
      (aplicar_marcas texto marcas)[i + shiftAt marcas i]? = texto[i]?) := by
  have hch : chainedFrom 0 texto.length marcas :=
    chained_of_sorted_disjoint texto.length marcas 0 hb hsort hdisj
      (fun _ _ => Nat.zero_le _)
  have hfold : aplicar_marcas texto marcas = marcas.foldr (spliceMarca texto) texto := by
    unfold aplicar_marcas
    by_cases hnil : marcas = []
    · rw [if_pos hnil, hnil]
      rfl
    · rw [if_neg hnil]
  have hrender : aplicar_marcas texto marcas = renderMarcas texto 0 marcas := by
    rw [hfold]
    exact foldr_splice_eq_render texto marcas hch
  refine ⟨?_, hrender, ?_⟩
  · rw [hfold]
    exact length_foldr_splice texto marcas
      (fun m hm => ⟨Nat.le_of_lt (hb m hm).1, (hb m hm).2⟩)
  · intro i hlen houts
    rw [hrender]
    have h := render_get texto marcas 0 i hch (Nat.zero_le i) hlen houts
    rwa [Nat.sub_zero] at h

/-- C6 witness: a six-character text with one Strong and one Weak marker;
the rewritten text has length 6 + 1 + 4 and the character at index 5
(outside both spans) reappears shifted by the total overhead 5. -/
theorem c6_rewrite_witness :
    (aplicar_marcas c6Texto c6Marcas).length =
      c6Texto.length + (c6Marcas.map overhead).sum ∧
    (aplicar_marcas c6Texto c6Marcas).length = 11 ∧
    (aplicar_marcas c6Texto c6Marcas)[5 + shiftAt c6Marcas 5]? = c6Texto[5]? ∧
    shiftAt c6Marcas 5 = 5 := by
  have h := c6_rewrite c6Texto c6Marcas (by with_unfolding_all decide)
    (by with_unfolding_all decide) (by with_unfolding_all decide)
  refine ⟨h.1, ?_, ?_, by with_unfolding_all decide⟩
  · rw [h.1]
    with_unfolding_all decide
  · exact h.2.2 5 (by with_unfolding_all decide) (by with_unfolding_all decide)

/-! ## Helper lemmas for Mode B (C5) -/

theorem length_sInsert {α : Type} (bef : α → α → Bool) (x : α) (l : List α) :
    (sInsert bef x l).length = l.length + 1 := by
  induction l with
  | nil => rfl
  | cons y ys ih =>
    simp only [sInsert]
    by_cases h : bef x y
    · rw [if_pos h]
      simp [List.length_cons]
    · rw [if_neg h]
      simp [List.length_cons, ih]

theorem length_sSort {α : Type} (bef : α → α → Bool) (l : List α) :
    (sSort bef l).length = l.length := by
  induction l with
  | nil => rfl
  | cons x xs ih => simp [sSort, length_sInsert, ih]

theorem offsetPairs_length {δ : Type} (l : List (OffMatch δ)) :
    (l.filterMap (fun m => m.entidad.offset.map (fun se => (m, se)))).length =
      l.countP hasOffset := by
  induction l with
  | nil => rfl
  | cons m ms ih =>
    rw [List.filterMap_cons, List.countP_cons]
    cases hoff : m.entidad.offset with
    | none => simp [hasOffset, hoff, ih]
    | some se => simp [hasOffset, hoff, ih]

theorem mkPosRecords_length {δ : Type} (pref typ : String) (l : List (OffMatch δ)) :
    (mkPosRecords pref typ l).length = l.countP hasOffset := by
  unfold mkPosRecords
  rw [List.length_map, List.enum_length, offsetPairs_length]

theorem mkPosRecords_idents {δ : Type} (pref typ : String) (l : List (OffMatch δ)) :
    (mkPosRecords pref typ l).map (fun r => r.ident) =
      (List.range (l.countP hasOffset)).map (fun i => pref ++ toString i) := by
  unfold mkPosRecords
  rw [List.map_map, ← offsetPairs_length (δ := δ) l, ← List.enum_map_fst, List.map_map]
  rfl

theorem mem_mkPosRecords {δ : Type} {pref typ : String} {l : List (OffMatch δ)}
    {r : PosRecord δ} (h : r ∈ mkPosRecords pref typ l) :
    ∃ i : Nat, r.ident = pref ++ toString i ∧ r.typ = typ := by
  unfold mkPosRecords at h
  obtain ⟨p, _, rfl⟩ := List.mem_map.mp h
  exact ⟨p.1, rfl, rfl⟩

/-- C5: `annotate_positions` returns the original text plus one annotation
record per offset-bearing match (offset-less entities are skipped, not an
error), each bearing a synthetic per-type-prefixed identifier
(`v0, v1, …` / `p0, …` / `u0, …`), with the records sorted by ascending
`start`. -/
theorem c5_annotate_positions {δ : Type} (texto : Str) (ms : PosInput δ) :
    (annotate_positions texto ms).1 = texto ∧
    (annotate_positions texto ms).2.length =
      ms.vehiculos.countP hasOffset + ms.personas.countP hasOffset +
        ms.ubicaciones.countP hasOffset ∧
    (annotate_positions texto ms).2.Pairwise (fun a b => a.start ≤ b.start) ∧
    ((mkPosRecords "v" "VEHICLE" ms.vehiculos).map (fun r => r.ident) =
      (List.range (ms.vehiculos.countP hasOffset)).map (fun i => "v" ++ toString i)) ∧
    ((mkPosRecords "p" "PERSON" ms.personas).map (fun r => r.ident) =
      (List.range (ms.personas.countP hasOffset)).map (fun i => "p" ++ toString i)) ∧
    ((mkPosRecords "u" "LOCATION" ms.ubicaciones).map (fun r => r.ident) =
      (List.range (ms.ubicaciones.countP hasOffset)).map (fun i => "u" ++ toString i)) ∧
    (∀ r ∈ (annotate_positions texto ms).2, ∃ i : Nat,
      (r.ident = "v" ++ toString i ∧ r.typ = "VEHICLE") ∨
      (r.ident = "p" ++ toString i ∧ r.typ = "PERSON") ∨
      (r.ident = "u" ++ toString i ∧ r.typ = "LOCATION")) := by
  refine ⟨rfl, ?_, ?_, mkPosRecords_idents _ _ _, mkPosRecords_idents _ _ _,
    mkPosRecords_idents _ _ _, ?_⟩
  · simp only [annotate_positions]
    rw [length_sSort, List.length_append, List.length_append,
      mkPosRecords_length, mkPosRecords_length, mkPosRecords_length]
  · simp only [annotate_positions]
    apply pairwise_sSort
    · intro a b h
      simpa [befPosStart] using h
    · intro a b h
      have hn : ¬ (a.start ≤ b.start) := by simpa [befPosStart] using h
      omega
    · intro a b c hab hbc
      omega
  · intro r hr
    simp only [annotate_positions] at hr
    rcases List.mem_append.mp ((mem_sSort _ _ _).mp hr) with h' | hu
    · rcases List.mem_append.mp h' with hv | hp
      · obtain ⟨i, hi⟩ := mem_mkPosRecords hv
        exact ⟨i, Or.inl hi⟩
      · obtain ⟨i, hi⟩ := mem_mkPosRecords hp
        exact ⟨i, Or.inr (Or.inl hi)⟩
    · obtain ⟨i, hi⟩ := mem_mkPosRecords hu
      exact ⟨i, Or.inr (Or.inr hi)⟩

/-- C5 witness: a concrete input with one offset-less vehicle match (which
is skipped) yields exactly two records, sorted by start, the location
record carrying identifier `u0`. -/
theorem c5_annotate_positions_witness :
    (annotate_positions ['t'] c5Input).1 = ['t'] ∧
    (annotate_positions ['t'] c5Input).2.length = 2 ∧
    (annotate_positions ['t'] c5Input).2.Pairwise (fun a b => a.start ≤ b.start) ∧
    (∃ i : Nat,
      ((⟨"u0", ['u', '1'], "LOCATION", 2, 4, "partial", (none : Option Nat)⟩ :
          PosRecord Nat).ident = "v" ++ toString i ∧
        (⟨"u0", ['u', '1'], "LOCATION", 2, 4, "partial", (none : Option Nat)⟩ :
          PosRecord Nat).typ = "VEHICLE") ∨
      ((⟨"u0", ['u', '1'], "LOCATION", 2, 4, "partial", (none : Option Nat)⟩ :
          PosRecord Nat).ident = "p" ++ toString i ∧
        (⟨"u0", ['u', '1'], "LOCATION", 2, 4, "partial", (none : Option Nat)⟩ :
          PosRecord Nat).typ = "PERSON") ∨
      ((⟨"u0", ['u', '1'], "LOCATION", 2, 4, "partial", (none : Option Nat)⟩ :
          PosRecord Nat).ident = "u" ++ toString i ∧
        (⟨"u0", ['u', '1'], "LOCATION", 2, 4, "partial", (none : Option Nat)⟩ :
          PosRecord Nat).typ = "LOCATION")) := by
  have h := c5_annotate_positions ['t'] c5Input
  refine ⟨h.1, h.2.1.trans (by with_unfolding_all decide), h.2.2.1, ?_⟩
  exact h.2.2.2.2.2.2 ⟨"u0", ['u', '1'], "LOCATION", 2, 4, "partial", none⟩
    (by with_unfolding_all decide)

end Sherlock
